import Mathlib

/-!
Verification of the jamf_pro_bootstrap request-processing core.

This file is a shallow embedding of the repository's Python sources:

* src/app/encryption.py  (EncryptionManager)
* src/app/database.py    (JamfRequest model, DatabaseManager)
* src/app/jamf_processor.py (JamfProcessor.create_computer_record)
* src/app.py             (create_request and process_pending_requests routes)

Conventions of the embedding:

* Python `str` values are Lean `String`s; Python `bytes` are `List Nat`
  with every element below 256.
* `str.encode()` / `bytes.decode()` are the real UTF-8 codec, implemented
  below (`utf8Encode` / `utf8Decode`).
* `base64.urlsafe_b64encode` / `urlsafe_b64decode` are implemented
  concretely (`b64Encode` / `b64Decode`); the decoder is strict about the
  alphabet and padding where the stdlib decoder is lenient about stray
  non-alphabet characters, a divergence no statement below depends on.
* Library cryptography is modelled symbolically, keeping exactly the
  properties the code relies on:
  - PBKDF2-HMAC-SHA256 (`pbkdf2Sha256`) is a deterministic function of
    (secret, salt, iteration count);
  - Fernet (`fernetEncrypt` / `fernetDecrypt`) is authenticated symmetric
    encryption: decryption with the encrypting key restores the plaintext,
    and anything that is not a token produced under the same key fails;
  - `hashlib.sha256(..).hexdigest()` (`sha256Hex`) is an idealised
    collision-free digest, modelled as an injective hex rendering of the
    input bytes.  All statements below use only determinism and
    distinctness of digests, never their width.
* Fallible Python code returns `Except PyErr` (raising) or `Option`
  (returning None); a `try/except` is a `match` on the `Except`.
* `datetime.utcnow()` is an explicit `now : Nat` argument.
* `json.loads` (`parseJson`) is modelled for the payload shapes the CRM
  produces (src/example_crm_request.py): objects whose values are strings
  or flat string-valued objects, written without insignificant
  whitespace.  Parse failure raises, as `json.loads` does.
* The SQL store is a `List JamfRequest`; each DatabaseManager method is
  one atomic operation on it, matching the per-call session/commit
  discipline of src/app/database.py.
-/

set_option maxRecDepth 200000

namespace JamfBootstrap

/-- Bytes are `Nat`s; a well-formed byte string has all entries below 256. -/
def ValidBytes (bs : List Nat) : Prop := ∀ b ∈ bs, b < 256

instance (bs : List Nat) : Decidable (ValidBytes bs) := by
  unfold ValidBytes; infer_instance

/-! ### Variable-length natural-number serialisation

Used by the symbolic crypto layer to build injective, byte-valued
encodings (length prefixes, iteration counts). -/

/-- Worker for `varint`; the fuel bounds the digit count (any fuel at
least `n` is enough, and the fuel-0 case is unreachable then). -/
def varintAux : Nat → Nat → List Nat
  | 0, n => [n % 128]
  | fuel + 1, n => if n < 128 then [n] else (128 + n % 128) :: varintAux fuel (n / 128)

/-- Serialise a natural number as base-128 digits, least significant first,
with the high bit marking continuation. Every produced byte is below 256. -/
def varint (n : Nat) : List Nat := varintAux n n

/-- Inverse of `varint`, reading one encoded number off the front of a
byte list and returning the remainder. -/
def varintDecode : List Nat → Option (Nat × List Nat)
  | [] => none
  | b :: rest =>
    if b < 128 then some (b, rest)
    else
      match varintDecode rest with
      | some (n, r) => some ((b - 128) + 128 * n, r)
      | none => none

/-! ### UTF-8 (the `str.encode()` / `bytes.decode()` codec) -/

/-- UTF-8 encoding of a single Unicode scalar value. -/
def utf8EncodeChar (n : Nat) : List Nat :=
  if n < 0x80 then [n]
  else if n < 0x800 then [0xC0 + n / 64, 0x80 + n % 64]
  else if n < 0x10000 then [0xE0 + n / 4096, 0x80 + n / 64 % 64, 0x80 + n % 64]
  else [0xF0 + n / 262144, 0x80 + n / 4096 % 64, 0x80 + n / 64 % 64, 0x80 + n % 64]

/-- UTF-8 encoding of a sequence of Unicode scalar values. -/
def utf8Encode : List Nat → List Nat
  | [] => []
  | c :: cs => utf8EncodeChar c ++ utf8Encode cs

/-- Decode one UTF-8 scalar value off the front of a byte list: strict
(continuation-byte ranges, no overlong forms, no surrogates, no values
past 0x10FFFF), as Python's `bytes.decode()`. -/
def utf8DecodeOne : List Nat → Option (Nat × List Nat)
  | [] => none
  | b :: rest =>
    if b < 0x80 then some (b, rest)
    else if b < 0xC2 then none
    else if b < 0xE0 then
      match rest with
      | b2 :: rest2 =>
        if 0x80 ≤ b2 ∧ b2 < 0xC0 then some ((b - 0xC0) * 64 + (b2 - 0x80), rest2)
        else none
      | [] => none
    else if b < 0xF0 then
      match rest with
      | b2 :: b3 :: rest3 =>
        if 0x80 ≤ b2 ∧ b2 < 0xC0 ∧ 0x80 ≤ b3 ∧ b3 < 0xC0 then
          let cp := (b - 0xE0) * 4096 + (b2 - 0x80) * 64 + (b3 - 0x80)
          if 0x800 ≤ cp ∧ (cp < 0xD800 ∨ 0xE000 ≤ cp) then some (cp, rest3) else none
        else none
      | _ => none
    else if b < 0xF5 then
      match rest with
      | b2 :: b3 :: b4 :: rest4 =>
        if 0x80 ≤ b2 ∧ b2 < 0xC0 ∧ 0x80 ≤ b3 ∧ b3 < 0xC0 ∧ 0x80 ≤ b4 ∧ b4 < 0xC0 then
          let cp := (b - 0xF0) * 262144 + (b2 - 0x80) * 4096 + (b3 - 0x80) * 64 + (b4 - 0x80)
          if 0x10000 ≤ cp ∧ cp < 0x110000 then some (cp, rest4) else none
        else none
      | _ => none
    else none

/-- The decoding loop; the fuel bounds the number of scalars (the input
length is always enough, each scalar consuming at least one byte). -/
def utf8DecodeLoop : Nat → List Nat → Option (List Nat)
  | _, [] => some []
  | 0, _ :: _ => none
  | fuel + 1, b :: rest =>
    match utf8DecodeOne (b :: rest) with
    | some (cp, rest2) =>
      match utf8DecodeLoop fuel rest2 with
      | some cs => some (cp :: cs)
      | none => none
    | none => none

/-- Full UTF-8 decoding of a byte list. -/
def utf8Decode (bs : List Nat) : Option (List Nat) := utf8DecodeLoop bs.length bs

/-- `s.encode()`: the UTF-8 bytes of a Python string. -/
def pyEncode (s : String) : List Nat :=
  utf8Encode (s.data.map Char.toNat)

/-- `bs.decode()`: UTF-8 decoding back to a Python string; raises
(`UnicodeDecodeError`, here `none`) on invalid byte sequences. -/
def pyDecode (bs : List Nat) : Option String :=
  match utf8Decode bs with
  | some cps => some ⟨cps.map Char.ofNat⟩
  | none => none

/-! ### URL-safe base64 (`base64.urlsafe_b64encode` / `urlsafe_b64decode`) -/

/-- The URL-safe base64 alphabet. -/
def b64Alphabet : List Char :=
  "ABCDEFGHIJKLMNOPQRSTUVWXYZabcdefghijklmnopqrstuvwxyz0123456789-_".data

/-- Character for a 6-bit group. -/
def b64Char (n : Nat) : Char := b64Alphabet.getD n 'A'

/-- Index of a character in the alphabet, `none` for non-alphabet chars. -/
def b64Val (c : Char) : Option Nat := b64Alphabet.indexOf? c

/-- Encode bytes three at a time into four base64 characters, padding the
final partial group with `=`. -/
def b64EncodeChunks : List Nat → List Char
  | [] => []
  | [a] => [b64Char (a / 4), b64Char (a % 4 * 16), '=', '=']
  | [a, b] => [b64Char (a / 4), b64Char (a % 4 * 16 + b / 16), b64Char (b % 16 * 4), '=']
  | a :: b :: c :: rest =>
    b64Char (a / 4) :: b64Char (a % 4 * 16 + b / 16) ::
      b64Char (b % 16 * 4 + c / 64) :: b64Char (c % 64) :: b64EncodeChunks rest

/-- `base64.urlsafe_b64encode(bs).decode()`. -/
def b64Encode (bs : List Nat) : String := ⟨b64EncodeChunks bs⟩

/-- Strict inverse of `b64EncodeChunks`; `none` models `binascii.Error`. -/
def b64DecodeChunks : List Char → Option (List Nat)
  | [] => some []
  | c1 :: c2 :: c3 :: c4 :: rest =>
    match b64Val c1, b64Val c2 with
    | some v1, some v2 =>
      if c3 = '=' then
        if c4 = '=' ∧ rest = [] then some [v1 * 4 + v2 / 16] else none
      else
        match b64Val c3 with
        | some v3 =>
          if c4 = '=' then
            if rest = [] then some [v1 * 4 + v2 / 16, v2 % 16 * 16 + v3 / 4] else none
          else
            match b64Val c4 with
            | some v4 =>
              match b64DecodeChunks rest with
              | some ds =>
                some ((v1 * 4 + v2 / 16) :: (v2 % 16 * 16 + v3 / 4) :: (v3 % 4 * 64 + v4) :: ds)
              | none => none
            | none => none
        | none => none
    | _, _ => none
  | _ => none

/-- `base64.urlsafe_b64decode(s.encode())`. -/
def b64Decode (s : String) : Option (List Nat) := b64DecodeChunks s.data

/-! ### Symbolic models of the cryptographic library primitives -/

/-- Length-prefixed concatenation: an injective pairing of byte strings
that stays byte-valued. -/
def pairBytes (xs ys : List Nat) : List Nat := varint xs.length ++ xs ++ ys

/-- Inverse of `pairBytes`. -/
def unpairBytes (bs : List Nat) : Option (List Nat × List Nat) :=
  match varintDecode bs with
  | some (n, r) => if n ≤ r.length then some (r.take n, r.drop n) else none
  | none => none

/-- Modelled library primitive: `PBKDF2HMAC(SHA256, length=32, salt,
iterations).derive(secret)`.  The model keeps what the code relies on —
the derived key is a deterministic, byte-valued function of the secret,
the fixed salt and the iteration count; the pseudorandomness of the real
KDF is not used by any statement below. -/
def pbkdf2Sha256 (secret salt : List Nat) (iterations : Nat) : List Nat :=
  varint iterations ++ salt ++ secret

/-- Modelled library primitive: `Fernet(key).encrypt(data)`.  Symbolic
authenticated encryption: the token determines (key, data), so decryption
under the encrypting key restores `data` and anything else is rejected. -/
def fernetEncrypt (key data : List Nat) : List Nat := pairBytes key data

/-- Modelled library primitive: `Fernet(key).decrypt(token)`; `none`
models the `InvalidToken` exception (tampered token or wrong key). -/
def fernetDecrypt (key token : List Nat) : Option (List Nat) :=
  match unpairBytes token with
  | some (k, d) => if k = key then some d else none
  | none => none

/-- One hex digit. -/
def hexDigit (n : Nat) : Char := "0123456789abcdef".data.getD n '0'

/-- Hex rendering of a byte list. -/
def hexOfBytes : List Nat → List Char
  | [] => []
  | b :: bs => hexDigit (b / 16) :: hexDigit (b % 16) :: hexOfBytes bs

/-- Modelled library primitive: `hashlib.sha256(bs).hexdigest()`.  An
idealised collision-free digest: modelled as the injective hex rendering
of the input bytes.  Statements below use only that equal inputs give
equal digests and distinct inputs give distinct digests. -/
def sha256Hex (bs : List Nat) : String := ⟨hexOfBytes bs⟩

/-! ### Python exceptions -/

/-- The exceptions that flow through the embedded code paths. -/
inductive PyErr where
  /-- `binascii.Error` from base64 decoding. -/
  | binasciiError : PyErr
  /-- `cryptography.fernet.InvalidToken`. -/
  | invalidToken : PyErr
  /-- `UnicodeDecodeError` from `bytes.decode()`. -/
  | unicodeDecodeError : PyErr
  /-- `json.JSONDecodeError` from `json.loads`. -/
  | jsonDecodeError : PyErr
  /-- `ValueError(msg)` raised by the application code. -/
  | valueError (msg : String) : PyErr
deriving DecidableEq, Repr

/-- `str(e)`: the message the drain loop records on failure. -/
def PyErr.str : PyErr → String
  | .binasciiError => "Invalid base64-encoded string"
  | .invalidToken => "InvalidToken"
  | .unicodeDecodeError => "invalid utf-8 sequence"
  | .jsonDecodeError => "Expecting value: line 1 column 1 (char 0)"
  | .valueError msg => msg

/-! ### `src/app/encryption.py` — EncryptionManager -/

/-- The fixed application-wide salt `b'jamf_bootstrap_salt'`
(src/app/encryption.py line 37). -/
def saltBytes : List Nat := pyEncode "jamf_bootstrap_salt"

/-- `EncryptionManager`: holds the encoded secret and the Fernet key
derived in `_create_fernet` (src/app/encryption.py lines 20-44). -/
structure EncryptionManager where
  secret_key : List Nat
  fernetKey : List Nat
deriving DecidableEq, Repr

/-- `EncryptionManager.__init__`: encodes the secret and derives the
Fernet key by PBKDF2 over the fixed salt with 100000 iterations
(src/app/encryption.py lines 20-44; the urlsafe-base64 wrapping of the
32 raw key bytes demanded by the Fernet API is identity-irrelevant here
and elided). -/
def mkEncryptionManager (secretKey : String) : EncryptionManager :=
  let sk := pyEncode secretKey
  { secret_key := sk, fernetKey := pbkdf2Sha256 sk saltBytes 100000 }

/-- `EncryptionManager.encrypt_data` (src/app/encryption.py lines 46-61):
`base64.urlsafe_b64encode(self.fernet.encrypt(data.encode())).decode()`. -/
def encrypt_data (m : EncryptionManager) (data : String) : String :=
  b64Encode (fernetEncrypt m.fernetKey (pyEncode data))

/-- `EncryptionManager.decrypt_data` (src/app/encryption.py lines 63-81):
base64-decode, Fernet-decrypt, UTF-8-decode; each step re-raises its
exception (`except ... raise`). -/
def decrypt_data (m : EncryptionManager) (encryptedData : String) : Except PyErr String :=
  match b64Decode encryptedData with
  | none => .error .binasciiError
  | some encryptedBytes =>
    match fernetDecrypt m.fernetKey encryptedBytes with
    | none => .error .invalidToken
    | some plainBytes =>
      match pyDecode plainBytes with
      | none => .error .unicodeDecodeError
      | some s => .ok s

/-- `EncryptionManager.generate_checksum` (src/app/encryption.py lines
83-97): `hashlib.sha256(data.encode()).hexdigest()`. -/
def generate_checksum (_m : EncryptionManager) (data : String) : String :=
  sha256Hex (pyEncode data)

/-- `EncryptionManager.verify_checksum` (src/app/encryption.py lines
99-115): exact string comparison of digests. -/
def verify_checksum (m : EncryptionManager) (data expectedChecksum : String) : Bool :=
  generate_checksum m data == expectedChecksum

/-- Checksum comparison against a nullable stored column value: a missing
stored checksum compares unequal to any hex digest, as the Python string
comparison against `None` does. -/
def checksumMatches (m : EncryptionManager) (data : String) : Option String → Bool
  | some e => verify_checksum m data e
  | none => false

/-- `EncryptionManager.decrypt_and_verify` (src/app/encryption.py lines
135-155): tries `decrypt_data`, then compares checksums; the catch-all
`except` turns any exception into `None`, and a checksum mismatch is also
`None`. -/
def decrypt_and_verify (m : EncryptionManager) (encryptedData : String)
    (expectedChecksum : Option String) : Option String :=
  match decrypt_data m encryptedData with
  | .error _ => none
  | .ok d => if checksumMatches m d expectedChecksum then some d else none

/-- `EncryptionManager.validate_encrypted_data` (src/app/encryption.py
lines 171-187): base64-decodes and requires a non-empty result; any
exception means `False`. -/
def validate_encrypted_data (_m : EncryptionManager) (encryptedData : String) : Bool :=
  match b64Decode encryptedData with
  | some bs => decide (bs.length > 0)
  | none => false

/-! ### `src/app/database.py` — JamfRequest model and DatabaseManager -/

/-- The `jamf_requests` row (src/app/database.py lines 19-56).  `status`
is a string column; nullable columns are `Option`s; timestamps are
abstract instants (`Nat`). -/
structure JamfRequest where
  request_id : String
  crm_id : String
  jamf_pro_id : Option String
  status : String
  request_type : String
  payload : String
  encrypted_key : String
  created_at : Nat
  updated_at : Nat
  processed_at : Option Nat
  error_message : Option String
  retry_count : Nat
  encryption_version : String
  checksum : Option String
deriving DecidableEq, Repr

/-- Python truthiness of an optional string: `None` and `''` are falsy. -/
def truthyStr : Option String → Bool
  | none => false
  | some s => !(s == "")

/-- The in-place mutation `update_request_status` performs on the matched
row (src/app/database.py lines 154-163): set `status` (and `updated_at`
via the column's `onupdate`), conditionally set `jamf_pro_id`, on a
truthy `error_message` record it and bump `retry_count`, and stamp
`processed_at` on entering a terminal status. -/
def applyStatusUpdate (now : Nat) (status : String)
    (jamf_pro_id error_message : Option String) (r : JamfRequest) : JamfRequest :=
  let r1 := { r with status := status, updated_at := now }
  let r2 := if truthyStr jamf_pro_id then { r1 with jamf_pro_id := jamf_pro_id } else r1
  let r3 :=
    if truthyStr error_message then
      { r2 with error_message := error_message, retry_count := r2.retry_count + 1 }
    else r2
  if status = "completed" ∨ status = "failed" then { r3 with processed_at := some now } else r3

/-- `DatabaseManager.update_request_status` (src/app/database.py lines
149-173): find the first row with the given `request_id`; if present,
apply the update and return `True`, else return `False`. -/
def update_request_status (db : List JamfRequest) (now : Nat) (request_id status : String)
    (jamf_pro_id error_message : Option String) : Bool × List JamfRequest :=
  match db with
  | [] => (false, [])
  | r :: rest =>
    if r.request_id = request_id then
      (true, applyStatusUpdate now status jamf_pro_id error_message r :: rest)
    else
      let (found, rest') := update_request_status rest now request_id status jamf_pro_id error_message
      (found, r :: rest')

/-- Insertion of a row into a list kept ascending by `created_at`. -/
def insertByCreated (r : JamfRequest) : List JamfRequest → List JamfRequest
  | [] => [r]
  | x :: xs => if r.created_at ≤ x.created_at then r :: x :: xs else x :: insertByCreated r xs

/-- `ORDER BY created_at ASC` of the pending query. -/
def sortByCreated : List JamfRequest → List JamfRequest
  | [] => []
  | r :: rs => insertByCreated r (sortByCreated rs)

/-- `DatabaseManager.get_pending_requests` (src/app/database.py lines
175-188): rows with status `'pending'`, oldest `created_at` first,
limited. -/
def get_pending_requests (db : List JamfRequest) (limit : Nat) : List JamfRequest :=
  (sortByCreated (db.filter (fun r => r.status == "pending"))).take limit

/-- `DatabaseManager.create_request` (src/app/database.py lines 102-136):
insert a fresh row with default status `'pending'`, zero retries and
`'v1'` encryption version; the unique constraint on `request_id` makes a
duplicate insert fail (rollback, `None`). -/
def db_create_request (db : List JamfRequest) (now : Nat)
    (request_id crm_id request_type payload encrypted_key : String)
    (checksum : Option String) : Option JamfRequest × List JamfRequest :=
  if db.any (fun r => r.request_id == request_id) then (none, db)
  else
    let r : JamfRequest :=
      { request_id := request_id
        crm_id := crm_id
        jamf_pro_id := none
        status := "pending"
        request_type := request_type
        payload := payload
        encrypted_key := encrypted_key
        created_at := now
        updated_at := now
        processed_at := none
        error_message := none
        retry_count := 0
        encryption_version := "v1"
        checksum := checksum }
    (some r, db ++ [r])

/-! ### Decrypted payloads (`json.loads`)

The drain loop parses the decrypted payload with `json.loads` and then
treats it as a dict (`employee_data.get(...)`).  The model covers the
payload shapes the CRM produces (src/example_crm_request.py): an object
whose values are strings or flat string-valued objects, written without
insignificant whitespace and without escape sequences; the keys in scope
are distinct, so first-binding lookup agrees with dict semantics.
`json.loads` output that falls outside this fragment is a parse failure
here; the drain loop treats any such failure as one more caught,
recorded-as-failed exception, which is how the statements below use it. -/

/-- A JSON value in the modelled fragment. -/
inductive JVal where
  | str (s : String) : JVal
  | obj (fields : List (String × String)) : JVal
deriving DecidableEq, Repr

/-- A parsed payload: the top-level JSON object. -/
abbrev EmployeeData := List (String × JVal)

/-- `'"'` (written by code point to keep string literals plain). -/
def jsonQuote : Char := Char.ofNat 34

/-- Opening brace. -/
def jsonLBrace : Char := Char.ofNat 123

/-- Closing brace. -/
def jsonRBrace : Char := Char.ofNat 125

/-- Scan a string body up to the closing quote. -/
def jsonStrBody : List Char → Option (List Char × List Char)
  | [] => none
  | c :: rest =>
    if c = jsonQuote then some ([], rest)
    else
      match jsonStrBody rest with
      | some (acc, r) => some (c :: acc, r)
      | none => none

/-- Parse a JSON string literal. -/
def jsonStrLit : List Char → Option (String × List Char)
  | [] => none
  | c :: rest =>
    if c = jsonQuote then
      match jsonStrBody rest with
      | some (acc, r) => some (⟨acc⟩, r)
      | none => none
    else none

/-- Parse the `"k":"v"` pairs of a flat object, after its opening brace. -/
def jsonFlatPairs : Nat → List Char → Option (List (String × String) × List Char)
  | 0, _ => none
  | fuel + 1, cs =>
    match jsonStrLit cs with
    | some (k, rest) =>
      match rest with
      | c :: rest2 =>
        if c = ':' then
          match jsonStrLit rest2 with
          | some (v, rest3) =>
            match rest3 with
            | c2 :: rest4 =>
              if c2 = ',' then
                match jsonFlatPairs fuel rest4 with
                | some (ps, r) => some ((k, v) :: ps, r)
                | none => none
              else if c2 = jsonRBrace then some ([(k, v)], rest4)
              else none
            | [] => none
          | none => none
        else none
      | [] => none
    | none => none

/-- Parse a flat string-valued object. -/
def jsonFlatObj (fuel : Nat) (cs : List Char) : Option (List (String × String) × List Char) :=
  match cs with
  | c :: rest =>
    if c = jsonLBrace then
      match rest with
      | c2 :: rest2 =>
        if c2 = jsonRBrace then some ([], rest2) else jsonFlatPairs fuel rest
      | [] => none
    else none
  | [] => none

/-- Parse a value of the fragment: a string or a flat object. -/
def jsonVal (fuel : Nat) (cs : List Char) : Option (JVal × List Char) :=
  match jsonStrLit cs with
  | some (s, r) => some (JVal.str s, r)
  | none =>
    match jsonFlatObj fuel cs with
    | some (fields, r) => some (JVal.obj fields, r)
    | none => none

/-- Parse the pairs of the top-level object, after its opening brace. -/
def jsonTopPairs : Nat → List Char → Option (EmployeeData × List Char)
  | 0, _ => none
  | fuel + 1, cs =>
    match jsonStrLit cs with
    | some (k, rest) =>
      match rest with
      | c :: rest2 =>
        if c = ':' then
          match jsonVal fuel rest2 with
          | some (v, rest3) =>
            match rest3 with
            | c2 :: rest4 =>
              if c2 = ',' then
                match jsonTopPairs fuel rest4 with
                | some (ps, r) => some ((k, v) :: ps, r)
                | none => none
              else if c2 = jsonRBrace then some ([(k, v)], rest4)
              else none
            | [] => none
          | none => none
        else none
      | [] => none
    | none => none

/-- Parse the top-level object. -/
def jsonTopObj (cs : List Char) : Option (EmployeeData × List Char) :=
  match cs with
  | c :: rest =>
    if c = jsonLBrace then
      match rest with
      | c2 :: rest2 =>
        if c2 = jsonRBrace then some ([], rest2) else jsonTopPairs cs.length rest
      | [] => none
    else none
  | [] => none

/-- `json.loads` over the modelled fragment; raises `JSONDecodeError`
outside it. -/
def parseJson (s : String) : Except PyErr EmployeeData :=
  match jsonTopObj s.data with
  | some (fields, []) => .ok fields
  | _ => .error .jsonDecodeError

/-- Python truthiness of `dict.get(...)` on the modelled values: `None`,
`''` and `{}` are falsy. -/
def truthyJVal : Option JVal → Bool
  | none => false
  | some (.str s) => !(s == "")
  | some (.obj fields) => !fields.isEmpty

/-! ### `src/app/jamf_processor.py` — the remote adapter -/

/-- The dict a JamfProcessor operation returns to the drain loop:
`success`, optional `jamf_pro_id`, optional `error`.  `Option` fields are
absent keys. -/
structure AdapterResult where
  success : Bool
  jamf_pro_id : Option String
  error : Option String
deriving DecidableEq, Repr

/-- Read a string field of a parsed HTTP response object (the response
values in scope — Jamf record ids — are modelled as strings). -/
def respGetStr (resp : List (String × JVal)) (key : String) : Option String :=
  match resp.lookup key with
  | some (.str s) => some s
  | _ => none

/-- `JamfProcessor.create_computer_record` (src/app/jamf_processor.py
lines 93-171), over an oracle for the `_make_request('POST',
'/computers', ...)` outcome (`none` is a failed request): validates the
employee fields (raising `ValueError("Incomplete employee data")`, caught
by its own handler into a failure dict), and on HTTP success returns
`success=True` with `jamf_pro_id` read from the response's `id` key —
which is `None` when the response carries no `id`. -/
def create_computer_record (httpResult : Option (List (String × JVal)))
    (employee : EmployeeData) : AdapterResult :=
  let employee_id := employee.lookup "employee_id"
  let email := employee.lookup "email"
  let full_name := employee.lookup "full_name"
  let device := employee.lookup "device"
  if !(truthyJVal employee_id && truthyJVal email && truthyJVal full_name
      && truthyJVal device) then
    { success := false, jamf_pro_id := none, error := some "Incomplete employee data" }
  else
    match httpResult with
    | some resp =>
      { success := true, jamf_pro_id := respGetStr resp "id", error := none }
    | none =>
      { success := false, jamf_pro_id := none, error := some "Failed to create computer record" }

/-- The remote adapter as the drain loop sees it: one oracle per
operation, returning the processor's result dict (`none` models a method
returning `None`).  `JamfProcessor.create_computer_record` instantiates
`createRecord` (see `create_computer_record`); update and delete behave
analogously from the loop's point of view. -/
structure JamfAdapter where
  createRecord : EmployeeData → Option AdapterResult
  updateRecord : String → EmployeeData → Option AdapterResult
  deleteRecord : String → Option AdapterResult

/-! ### `src/app/vault_client.py` — token validation -/

/-- The JSON body of a POST, with the fields the routes read.  A missing
field is `none`; extra keys in the real dict are irrelevant to the code
paths modelled. -/
structure IngestBody where
  crm_id : Option String
  request_type : Option String
  payload : Option String
  encrypted_key : Option String
  token : Option String
deriving DecidableEq, Repr

/-- `VaultClient.validate_payload_token` (src/app/vault_client.py lines
240-277): the request's `token` must be present and truthy, the secret
store must yield a truthy stored token, and the two must be equal.
`storedToken` is the value `get_secret(...)` returns from the external
vault (`none` when unavailable — fail closed). -/
def validate_payload_token (storedToken : Option String) (body : IngestBody) : Bool :=
  match body.token with
  | none => false
  | some t =>
    if t = "" then false
    else
      match storedToken with
      | none => false
      | some st => if st = "" then false else st == t

/-! ### `src/app.py` — the ingestion route -/

/-- What the `/api/request` route leaves behind: the HTTP status code,
the returned request id (on 201), and the store. -/
structure IngestOutcome where
  statusCode : Nat
  requestId : Option String
  db : List JamfRequest
deriving DecidableEq, Repr

/-- `create_request` (src/app.py lines 99-151): reject a missing body
(400), a missing required field (400) or a bad token (401); validate the
*encrypted key* with `validate_encrypted_data` (400); compute the
checksum with `generate_checksum(data['payload'])` — over the submitted,
still-encrypted payload — and persist; a storage conflict is a 500 with
nothing persisted.  `freshId` is the `uuid.uuid4()` value. -/
def create_request_route (m : EncryptionManager) (storedToken : Option String)
    (db : List JamfRequest) (now : Nat) (freshId : String)
    (body : Option IngestBody) : IngestOutcome :=
  match body with
  | none => { statusCode := 400, requestId := none, db := db }
  | some data =>
    if data.crm_id.isNone || data.request_type.isNone || data.payload.isNone ||
        data.encrypted_key.isNone || data.token.isNone then
      { statusCode := 400, requestId := none, db := db }
    else if !(validate_payload_token storedToken data) then
      { statusCode := 401, requestId := none, db := db }
    else if !(validate_encrypted_data m (data.encrypted_key.getD "")) then
      { statusCode := 400, requestId := none, db := db }
    else
      let checksum := generate_checksum m (data.payload.getD "")
      let created := db_create_request db now freshId (data.crm_id.getD "")
        (data.request_type.getD "") (data.payload.getD "") (data.encrypted_key.getD "")
        (some checksum)
      match created.1 with
      | none => { statusCode := 500, requestId := none, db := created.2 }
      | some _ => { statusCode := 201, requestId := some freshId, db := created.2 }

/-! ### `src/app.py` — the drain loop (`process_pending_requests`) -/

/-- The `request_record.jamf_pro_id or employee_data.get('jamf_pro_id')`
selection for update/delete (src/app.py lines 258, 263) combined with the
following `if not jamf_pro_id` guard: the stored id if truthy, else a
truthy string id from the payload, else nothing. -/
def effectiveJamfId (recId : Option String) (employee : EmployeeData) : Option String :=
  if truthyStr recId then recId
  else
    match employee.lookup "jamf_pro_id" with
    | some (.str s) => if s = "" then none else some s
    | _ => none

/-- The body of the per-record `try` (src/app.py lines 244-268):
decrypt-and-verify (a falsy result raises
`ValueError("Data integrity check failed")`), `json.loads`, then dispatch
on `request_type`; update/delete without an id raise before any remote
call.  The value is the adapter's result dict. -/
def attemptRequest (m : EncryptionManager) (adapter : JamfAdapter)
    (r : JamfRequest) : Except PyErr (Option AdapterResult) :=
  match decrypt_and_verify m r.payload r.checksum with
  | none => .error (.valueError "Data integrity check failed")
  | some decrypted =>
    if decrypted = "" then .error (.valueError "Data integrity check failed")
    else
      match parseJson decrypted with
      | .error e => .error e
      | .ok employee =>
        if r.request_type = "create" then .ok (adapter.createRecord employee)
        else if r.request_type = "update" then
          match effectiveJamfId r.jamf_pro_id employee with
          | none => .error (.valueError "jamf_pro_id required for update")
          | some jid => .ok (adapter.updateRecord jid employee)
        else if r.request_type = "delete" then
          match effectiveJamfId r.jamf_pro_id employee with
          | none => .error (.valueError "jamf_pro_id required for delete")
          | some jid => .ok (adapter.deleteRecord jid)
        else .error (.valueError ("Unsupported request type: " ++ r.request_type))

/-- The status update a record's iteration ends with (src/app.py lines
270-294): `("completed", result's jamf_pro_id, -)` on a success dict;
otherwise `"failed"` with the error text — the dict's `error` (default
`'Unknown error'`), `'No result'` for a `None` result, or `str(e)` for a
caught exception. -/
def recordFate (m : EncryptionManager) (adapter : JamfAdapter)
    (r : JamfRequest) : String × Option String × Option String :=
  match attemptRequest m adapter r with
  | .ok (some res) =>
    if res.success then ("completed", res.jamf_pro_id, none)
    else ("failed", none, some (res.error.getD "Unknown error"))
  | .ok none => ("failed", none, some "No result")
  | .error e => ("failed", none, some e.str)

/-- One iteration of the drain loop over the fetched snapshot `r`: mark
`processing`, run the attempt, then record the fate; the returned flag is
the `processed_count += 1` of the completed branch. -/
def processOneRequest (m : EncryptionManager) (adapter : JamfAdapter) (now : Nat)
    (db : List JamfRequest) (r : JamfRequest) : List JamfRequest × Bool :=
  let db1 := (update_request_status db now r.request_id "processing" none none).2
  let fate := recordFate m adapter r
  let db2 := (update_request_status db1 now r.request_id fate.1 fate.2.1 fate.2.2).2
  (db2, fate.1 == "completed")

/-- The `for request_record in pending_requests` loop with its running
`processed_count`. -/
def drainLoop (m : EncryptionManager) (adapter : JamfAdapter) (now : Nat) :
    List JamfRequest → List JamfRequest → List JamfRequest × Nat
  | db, [] => (db, 0)
  | db, r :: rest =>
    let step := processOneRequest m adapter now db r
    let tail := drainLoop m adapter now step.1 rest
    (tail.1, (if step.2 then 1 else 0) + tail.2)

/-- `process_pending_requests` core (src/app.py lines 236-299): fetch the
pending batch, process each fetched snapshot, return the final store and
the completed count. -/
def process_pending_requests (m : EncryptionManager) (adapter : JamfAdapter)
    (now : Nat) (db : List JamfRequest) : List JamfRequest × Nat :=
  drainLoop m adapter now db (get_pending_requests db 100)

/-! ### Whole-system operation sequences -/

/-- One externally triggered operation on the shared store: an ingestion
POST or a `/api/process` drain (whose body/token gate (src/app.py lines
218-224) either rejects — leaving the store untouched — or runs the
loop). -/
inductive SysOp where
  | ingest (storedToken : Option String) (freshId : String) (body : Option IngestBody)
      (now : Nat) : SysOp
  | drain (storedToken : Option String) (body : Option IngestBody) (adapter : JamfAdapter)
      (now : Nat) : SysOp

/-- Effect of one operation on the store. -/
def applySysOp (m : EncryptionManager) (db : List JamfRequest) : SysOp → List JamfRequest
  | .ingest storedToken freshId body now => (create_request_route m storedToken db now freshId body).db
  | .drain storedToken body adapter now =>
    match body with
    | none => db
    | some data =>
      if validate_payload_token storedToken data then
        (process_pending_requests m adapter now db).1
      else db

/-- A whole sequence of operations. -/
def runOps (m : EncryptionManager) : List SysOp → List JamfRequest → List JamfRequest
  | [], db => db
  | op :: ops, db => runOps m ops (applySysOp m db op)

/-- The status of the stored record with the given id. -/
def statusOf (db : List JamfRequest) (rid : String) : Option String :=
  (db.find? (fun r => r.request_id == rid)).map JamfRequest.status

/-! ### Derived notions used by the verification -/

/-- Shorthand: the list of stored `request_id`s. -/
def dbIds (db : List JamfRequest) : List String := db.map JamfRequest.request_id

/-- The final state of a fetched record after its drain iteration: the
`processing` update followed by the fate update, both keyed by the
snapshot `r`. -/
def recordOutcome (m : EncryptionManager) (adapter : JamfAdapter) (now : Nat)
    (r : JamfRequest) : JamfRequest :=
  let fate := recordFate m adapter r
  applyStatusUpdate now fate.1 fate.2.1 fate.2.2
    (applyStatusUpdate now "processing" none none r)

/-- A result the adapter oracle can hand to the drain loop. -/
def ResultOf (a : JamfAdapter) (res : AdapterResult) : Prop :=
  (∃ emp, a.createRecord emp = some res) ∨
  (∃ jid emp, a.updateRecord jid emp = some res) ∨
  (∃ jid, a.deleteRecord jid = some res)

/-- A well-formed adapter: a failure dict carries a non-empty error
detail, as every failure dict built by src/app/jamf_processor.py does
(its `error` values are non-empty literals or `str(e)` of exceptions
raised with non-empty messages). -/
def AdapterWF (a : JamfAdapter) : Prop :=
  ∀ res, ResultOf a res → res.success = false → ∃ s, res.error = some s ∧ s ≠ ""

/-- Per-record isolation within one drain invocation: every fetched
record ends the invocation terminal — `completed`, or `failed` with a
non-empty recorded error message. -/
def DrainIsolationSpec (m : EncryptionManager) (adapter : JamfAdapter) (now : Nat)
    (db : List JamfRequest) : Prop :=
  ∀ r ∈ get_pending_requests db 100,
    ∃ r' ∈ (process_pending_requests m adapter now db).1,
      r'.request_id = r.request_id ∧
      (r'.status = "completed" ∨
        (r'.status = "failed" ∧ ∃ s, r'.error_message = some s ∧ s ≠ ""))

/-- The returned count of one drain invocation is the number of fetched
records whose processing outcome is `completed`. -/
def DrainCountSpec (m : EncryptionManager) (adapter : JamfAdapter) (now : Nat)
    (db : List JamfRequest) : Prop :=
  (process_pending_requests m adapter now db).2 =
    ((get_pending_requests db 100).filter
      (fun r => (recordOutcome m adapter now r).status == "completed")).length

/-- Forward movement of the status field across a span of operations:
anything already past `pending` is untouched (so in particular `failed`
stays `failed` and nothing returns to `pending`), and a `pending` record
can only stay `pending` or end terminal. -/
def statusForward (s sFinal : String) : Prop :=
  (s ≠ "pending" → sFinal = s) ∧
  (s = "failed" → sFinal = "failed") ∧
  (sFinal = "pending" → s = "pending") ∧
  (s = "pending" → sFinal = "pending" ∨ sFinal = "completed" ∨ sFinal = "failed")

/-! ### Concrete sample data for witnesses and counterexamples -/

/-- A manager built from a small concrete secret. -/
def wM : EncryptionManager := mkEncryptionManager "k"

/-- A concrete CRM plaintext shaped like src/example_crm_request.py's
employee payload. -/
def wPlain : String :=
  "\x7b\"employee_id\":\"1\",\"email\":\"e\",\"full_name\":\"n\",\"device\":\x7b\"serial\":\"s\"\x7d\x7d"

/-- A sample stored row with the given identifying fields. -/
def mkSample (rid rtype payload : String) (checksum : Option String) (status : String)
    (created : Nat) : JamfRequest :=
  { request_id := rid, crm_id := "crm-1", jamf_pro_id := none, status := status,
    request_type := rtype, payload := payload, encrypted_key := "QQ==",
    created_at := created, updated_at := created, processed_at := none,
    error_message := none, retry_count := 0, encryption_version := "v1",
    checksum := checksum }

/-- A pending row whose payload decrypts and passes the checksum. -/
def wGoodRec : JamfRequest :=
  mkSample "r-good" "create" (encrypt_data wM wPlain)
    (some (generate_checksum wM wPlain)) "pending" 1

/-- A pending row whose payload is not even valid base64. -/
def wBadRec : JamfRequest := mkSample "r-bad" "create" "%%%" (some "zzz") "pending" 2

/-- An adapter whose three operations always succeed, the create
assigning external id `J9`. -/
def wOkAdapter : JamfAdapter :=
  { createRecord := fun _ => some { success := true, jamf_pro_id := some "J9", error := none },
    updateRecord := fun jid _ => some { success := true, jamf_pro_id := some jid, error := none },
    deleteRecord := fun _ => some { success := true, jamf_pro_id := none, error := none } }

/-- An adapter whose create is `JamfProcessor.create_computer_record`
against an HTTP response that carries no `id` key. -/
def wNoIdAdapter : JamfAdapter :=
  { createRecord := fun emp => some (create_computer_record (some [("status", .str "ok")]) emp),
    updateRecord := fun _ _ => none,
    deleteRecord := fun _ => none }

/-- An adapter whose create is `JamfProcessor.create_computer_record`
against an HTTP response assigning id `J7`. -/
def wIdAdapter : JamfAdapter :=
  { createRecord := fun emp => some (create_computer_record (some [("id", .str "J7")]) emp),
    updateRecord := fun _ _ => none,
    deleteRecord := fun _ => none }

/-- A well-formed ingestion body around the given payload. -/
def mkBody (payload : String) : IngestBody :=
  { crm_id := some "crm-1", request_type := some "create", payload := some payload,
    encrypted_key := some "QQ==", token := some "tok" }

deriving instance DecidableEq for Except

/-! ## Lemmas about the encoding layers -/

theorem varintAux_decode (tail : List Nat) :
    ∀ fuel n, n ≤ fuel → varintDecode (varintAux fuel n ++ tail) = some (n, tail) := by
  intro fuel
  induction fuel with
  | zero =>
    intro n hn
    have h0 : n = 0 := Nat.le_zero.mp hn
    subst h0
    simp [varintAux, varintDecode]
  | succ fuel ih =>
    intro n hn
    by_cases h : n < 128
    · simp [varintAux, varintDecode, h]
    · have hrec : n / 128 ≤ fuel := by
        have := Nat.div_lt_self (by omega : 0 < n) (by omega : 1 < 128)
        omega
      have hmod : ¬ (128 + n % 128 < 128) := by omega
      simp only [varintAux, if_neg h, List.cons_append, varintDecode, if_neg hmod,
        ih (n / 128) hrec]
      simp
      omega

theorem varint_decode (n : Nat) (tail : List Nat) :
    varintDecode (varint n ++ tail) = some (n, tail) :=
  varintAux_decode tail n n le_rfl

theorem varintAux_valid : ∀ fuel n, ValidBytes (varintAux fuel n) := by
  intro fuel
  induction fuel with
  | zero =>
    intro n b hb
    simp [varintAux] at hb
    omega
  | succ fuel ih =>
    intro n b hb
    by_cases h : n < 128
    · simp [varintAux, h] at hb
      omega
    · simp [varintAux, h] at hb
      rcases hb with hb | hb
      · omega
      · exact ih (n / 128) b hb

theorem varint_valid (n : Nat) : ValidBytes (varint n) := varintAux_valid n n

theorem ValidBytes.append {xs ys : List Nat} (hx : ValidBytes xs) (hy : ValidBytes ys) :
    ValidBytes (xs ++ ys) := by
  intro b hb
  rcases List.mem_append.mp hb with h | h
  · exact hx b h
  · exact hy b h

theorem utf8EncodeChar_valid (n : Nat) (h : n < 0x110000) : ValidBytes (utf8EncodeChar n) := by
  intro b hb
  unfold utf8EncodeChar at hb
  split_ifs at hb <;> simp at hb <;> omega

theorem utf8Encode_valid (cps : List Nat) (h : ∀ c ∈ cps, c < 0x110000) :
    ValidBytes (utf8Encode cps) := by
  induction cps with
  | nil => intro b hb; simp [utf8Encode] at hb
  | cons c cs ih =>
    exact ValidBytes.append
      (utf8EncodeChar_valid c (h c (by simp)))
      (ih (fun x hx => h x (by simp [hx])))

theorem utf8EncodeChar_ne_nil (n : Nat) : utf8EncodeChar n ≠ [] := by
  unfold utf8EncodeChar
  split_ifs <;> simp

theorem utf8DecodeOne_encodeChar (n : Nat) (hv : Nat.isValidChar n) (rest : List Nat) :
    utf8DecodeOne (utf8EncodeChar n ++ rest) = some (n, rest) := by
  have hlt : n < 0x110000 := by
    rcases hv with h | ⟨h1, h2⟩ <;> omega
  by_cases h1 : n < 0x80
  · simp only [utf8EncodeChar, if_pos h1, List.cons_append, List.nil_append]
    simp only [utf8DecodeOne, if_pos h1]
  · by_cases h2 : n < 0x800
    · have e1 : ¬ (0xC0 + n / 64 < 0x80) := by omega
      have e2 : ¬ (0xC0 + n / 64 < 0xC2) := by omega
      have e3 : 0xC0 + n / 64 < 0xE0 := by omega
      have e4 : 0x80 ≤ 0x80 + n % 64 ∧ 0x80 + n % 64 < 0xC0 := by omega
      simp only [utf8EncodeChar, if_neg h1, if_pos h2, List.cons_append, List.nil_append]
      simp only [utf8DecodeOne, if_neg e1, if_neg e2, if_pos e3, if_pos e4]
      have : (0xC0 + n / 64 - 0xC0) * 64 + (0x80 + n % 64 - 0x80) = n := by omega
      rw [this]
    · by_cases h3 : n < 0x10000
      · have e1 : ¬ (0xE0 + n / 4096 < 0x80) := by omega
        have e2 : ¬ (0xE0 + n / 4096 < 0xC2) := by omega
        have e3 : ¬ (0xE0 + n / 4096 < 0xE0) := by omega
        have e4 : 0xE0 + n / 4096 < 0xF0 := by omega
        have e5 : 0x80 ≤ 0x80 + n / 64 % 64 ∧ 0x80 + n / 64 % 64 < 0xC0 ∧
            0x80 ≤ 0x80 + n % 64 ∧ 0x80 + n % 64 < 0xC0 := by omega
        have ecp : (0xE0 + n / 4096 - 0xE0) * 4096 + (0x80 + n / 64 % 64 - 0x80) * 64 +
            (0x80 + n % 64 - 0x80) = n := by omega
        have e6 : 0x800 ≤ n ∧ (n < 0xD800 ∨ 0xE000 ≤ n) := by
          rcases hv with h | ⟨ha, hb⟩
          · exact ⟨by omega, Or.inl (by omega)⟩
          · exact ⟨by omega, Or.inr ha⟩
        simp only [utf8EncodeChar, if_neg h1, if_neg h2, if_pos h3, List.cons_append,
          List.nil_append]
        simp only [utf8DecodeOne, if_neg e1, if_neg e2, if_neg e3, if_pos e4, if_pos e5]
        rw [ecp]
        simp only [if_pos e6]
      · have e1 : ¬ (0xF0 + n / 262144 < 0x80) := by omega
        have e2 : ¬ (0xF0 + n / 262144 < 0xC2) := by omega
        have e3 : ¬ (0xF0 + n / 262144 < 0xE0) := by omega
        have e4 : ¬ (0xF0 + n / 262144 < 0xF0) := by omega
        have e5 : 0xF0 + n / 262144 < 0xF5 := by omega
        have e6 : 0x80 ≤ 0x80 + n / 4096 % 64 ∧ 0x80 + n / 4096 % 64 < 0xC0 ∧
            0x80 ≤ 0x80 + n / 64 % 64 ∧ 0x80 + n / 64 % 64 < 0xC0 ∧
            0x80 ≤ 0x80 + n % 64 ∧ 0x80 + n % 64 < 0xC0 := by omega
        have ecp : (0xF0 + n / 262144 - 0xF0) * 262144 + (0x80 + n / 4096 % 64 - 0x80) * 4096 +
            (0x80 + n / 64 % 64 - 0x80) * 64 + (0x80 + n % 64 - 0x80) = n := by omega
        have e7 : 0x10000 ≤ n ∧ n < 0x110000 := by omega
        simp only [utf8EncodeChar, if_neg h1, if_neg h2, if_neg h3, List.cons_append,
          List.nil_append]
        simp only [utf8DecodeOne, if_neg e1, if_neg e2, if_neg e3, if_neg e4, if_pos e5,
          if_pos e6]
        rw [ecp]
        simp only [if_pos e7]

theorem utf8DecodeLoop_encode :
    ∀ fuel cps, (∀ c ∈ cps, Nat.isValidChar c) → cps.length ≤ fuel →
      utf8DecodeLoop fuel (utf8Encode cps) = some cps := by
  intro fuel
  induction fuel with
  | zero =>
    intro cps h hlen
    have : cps = [] := List.length_eq_zero.mp (Nat.le_zero.mp hlen)
    subst this
    rfl
  | succ fuel ih =>
    intro cps h hlen
    match cps with
    | [] => rfl
    | c :: cs =>
      have hc : Nat.isValidChar c := h c (by simp)
      have hone : utf8DecodeOne (utf8EncodeChar c ++ utf8Encode cs) = some (c, utf8Encode cs) :=
        utf8DecodeOne_encodeChar c hc _
      have hrec : utf8DecodeLoop fuel (utf8Encode cs) = some cs :=
        ih cs (fun x hx => h x (by simp [hx])) (by simpa using Nat.succ_le_succ_iff.mp hlen)
      show utf8DecodeLoop (fuel + 1) (utf8EncodeChar c ++ utf8Encode cs) = some (c :: cs)
      match hE : utf8EncodeChar c ++ utf8Encode cs with
      | [] => exact absurd (List.append_eq_nil.mp hE).1 (utf8EncodeChar_ne_nil c)
      | b :: bs =>
        rw [hE] at hone
        simp only [utf8DecodeLoop, hone, hrec]

theorem utf8Encode_length_ge (cps : List Nat) : cps.length ≤ (utf8Encode cps).length := by
  induction cps with
  | nil => simp [utf8Encode]
  | cons c cs ih =>
    have : 1 ≤ (utf8EncodeChar c).length := by
      cases hE : utf8EncodeChar c with
      | nil => exact absurd hE (utf8EncodeChar_ne_nil c)
      | cons b bs => simp
    simp only [utf8Encode, List.length_append, List.length_cons]
    omega

theorem utf8_roundtrip (cps : List Nat) (h : ∀ c ∈ cps, Nat.isValidChar c) :
    utf8Decode (utf8Encode cps) = some cps :=
  utf8DecodeLoop_encode _ cps h (utf8Encode_length_ge cps)

theorem char_toNat_isValidChar (c : Char) : Nat.isValidChar c.toNat := c.valid

theorem pyEncode_valid (s : String) : ValidBytes (pyEncode s) := by
  apply utf8Encode_valid
  intro c hc
  rcases List.mem_map.mp hc with ⟨ch, _, rfl⟩
  rcases char_toNat_isValidChar ch with h | ⟨h1, h2⟩ <;> omega

theorem pyDecode_pyEncode (s : String) : pyDecode (pyEncode s) = some s := by
  unfold pyDecode pyEncode
  rw [utf8_roundtrip]
  · simp only [List.map_map]
    have : s.data.map (Char.ofNat ∘ Char.toNat) = s.data.map id := by
      apply List.map_congr_left
      intro c _
      simp [Char.ofNat_toNat]
    rw [this, List.map_id]
  · intro c hc
    rcases List.mem_map.mp hc with ⟨ch, _, rfl⟩
    exact char_toNat_isValidChar ch

theorem b64Val_b64Char : ∀ v < 64, b64Val (b64Char v) = some v := by decide

theorem b64Char_ne_pad : ∀ v < 64, b64Char v ≠ '=' := by decide

theorem b64DecodeChunks_encodeChunks :
    ∀ bs : List Nat, ValidBytes bs → b64DecodeChunks (b64EncodeChunks bs) = some bs := by
  intro bs
  induction bs using b64EncodeChunks.induct with
  | case1 => intro _; rfl
  | case2 a =>
    intro h
    have ha : a < 256 := h a (by simp)
    have h1 : a / 4 < 64 := by omega
    have h2 : a % 4 * 16 < 64 := by omega
    simp only [b64EncodeChunks, b64DecodeChunks, b64Val_b64Char _ h1, b64Val_b64Char _ h2]
    simp
    omega
  | case3 a b =>
    intro h
    have ha : a < 256 := h a (by simp)
    have hb : b < 256 := h b (by simp)
    have h1 : a / 4 < 64 := by omega
    have h2 : a % 4 * 16 + b / 16 < 64 := by omega
    have h3 : b % 16 * 4 < 64 := by omega
    have hne : b64Char (b % 16 * 4) ≠ '=' := b64Char_ne_pad _ h3
    simp only [b64EncodeChunks, b64DecodeChunks, b64Val_b64Char _ h1, b64Val_b64Char _ h2,
      b64Val_b64Char _ h3, if_neg hne]
    simp
    omega
  | case4 a b c rest ih =>
    intro h
    have ha : a < 256 := h a (by simp)
    have hb : b < 256 := h b (by simp)
    have hc : c < 256 := h c (by simp)
    have hrest : ValidBytes rest := fun x hx => h x (by simp [hx])
    have h1 : a / 4 < 64 := by omega
    have h2 : a % 4 * 16 + b / 16 < 64 := by omega
    have h3 : b % 16 * 4 + c / 64 < 64 := by omega
    have h4 : c % 64 < 64 := by omega
    have hne3 : b64Char (b % 16 * 4 + c / 64) ≠ '=' := b64Char_ne_pad _ h3
    have hne4 : b64Char (c % 64) ≠ '=' := b64Char_ne_pad _ h4
    simp only [b64EncodeChunks, b64DecodeChunks, b64Val_b64Char _ h1, b64Val_b64Char _ h2,
      b64Val_b64Char _ h3, b64Val_b64Char _ h4, if_neg hne3, if_neg hne4, ih hrest]
    simp
    omega

theorem b64Decode_b64Encode (bs : List Nat) (h : ValidBytes bs) :
    b64Decode (b64Encode bs) = some bs :=
  b64DecodeChunks_encodeChunks bs h

theorem unpairBytes_pairBytes (xs ys : List Nat) :
    unpairBytes (pairBytes xs ys) = some (xs, ys) := by
  unfold unpairBytes pairBytes
  rw [List.append_assoc, varint_decode]
  have hle : xs.length ≤ (xs ++ ys).length := by simp
  simp [hle, List.take_left, List.drop_left]

theorem fernetDecrypt_fernetEncrypt (key data : List Nat) :
    fernetDecrypt key (fernetEncrypt key data) = some data := by
  unfold fernetDecrypt fernetEncrypt
  rw [unpairBytes_pairBytes]
  simp

theorem pairBytes_valid {xs ys : List Nat} (hx : ValidBytes xs) (hy : ValidBytes ys) :
    ValidBytes (pairBytes xs ys) :=
  ValidBytes.append (ValidBytes.append (varint_valid _) hx) hy

theorem saltBytes_valid : ValidBytes saltBytes := pyEncode_valid _

theorem pbkdf2Sha256_valid {secret salt : List Nat} (iterations : Nat)
    (hs : ValidBytes secret) (hsalt : ValidBytes salt) :
    ValidBytes (pbkdf2Sha256 secret salt iterations) :=
  ValidBytes.append (ValidBytes.append (varint_valid _) hsalt) hs

theorem mkEncryptionManager_key_valid (secret : String) :
    ValidBytes (mkEncryptionManager secret).fernetKey :=
  pbkdf2Sha256_valid 100000 (pyEncode_valid secret) saltBytes_valid

/-- Decryption inverts encryption for any manager whose key is
byte-valued (every manager built by `mkEncryptionManager` is). -/
theorem decrypt_data_encrypt_data (m : EncryptionManager) (hkey : ValidBytes m.fernetKey)
    (data : String) : decrypt_data m (encrypt_data m data) = .ok data := by
  unfold decrypt_data encrypt_data fernetEncrypt
  rw [b64Decode_b64Encode _ (pairBytes_valid hkey (pyEncode_valid data))]
  show (match fernetDecrypt m.fernetKey (fernetEncrypt m.fernetKey (pyEncode data)) with
    | none => Except.error PyErr.invalidToken
    | some plainBytes =>
      match pyDecode plainBytes with
      | none => Except.error PyErr.unicodeDecodeError
      | some s => Except.ok s) = Except.ok data
  rw [fernetDecrypt_fernetEncrypt]
  simp only [pyDecode_pyEncode]

/-- C3 — For every plaintext string P and every EncryptionManager
initialized from a secret, decrypting the result of encrypting P with
that same manager returns exactly P: the encrypt/decrypt round-trip
through UTF-8, the authenticated-encryption envelope and the urlsafe
base64 transport encoding is lossless (src/app/encryption.py lines
46-81). -/
theorem C3_encrypt_decrypt_roundtrip (secret plaintext : String) :
    decrypt_data (mkEncryptionManager secret)
      (encrypt_data (mkEncryptionManager secret) plaintext) = .ok plaintext :=
  decrypt_data_encrypt_data _ (mkEncryptionManager_key_valid secret) plaintext

/-! ## Lemmas about the store operations -/

theorem applyStatusUpdate_request_id (now : Nat) (st : String) (j e : Option String)
    (r : JamfRequest) : (applyStatusUpdate now st j e r).request_id = r.request_id := by
  unfold applyStatusUpdate
  dsimp only
  split_ifs <;> rfl

theorem applyStatusUpdate_status (now : Nat) (st : String) (j e : Option String)
    (r : JamfRequest) : (applyStatusUpdate now st j e r).status = st := by
  unfold applyStatusUpdate
  dsimp only
  split_ifs <;> rfl

theorem applyStatusUpdate_retry_count (now : Nat) (st : String) (j e : Option String)
    (r : JamfRequest) : (applyStatusUpdate now st j e r).retry_count =
      r.retry_count + (if truthyStr e then 1 else 0) := by
  unfold applyStatusUpdate
  dsimp only
  split_ifs <;> rfl

theorem applyStatusUpdate_jamf_pro_id (now : Nat) (st : String) (j e : Option String)
    (r : JamfRequest) : (applyStatusUpdate now st j e r).jamf_pro_id =
      (if truthyStr j then j else r.jamf_pro_id) := by
  unfold applyStatusUpdate
  dsimp only
  split_ifs <;> rfl

theorem applyStatusUpdate_error_message (now : Nat) (st : String) (j e : Option String)
    (r : JamfRequest) : (applyStatusUpdate now st j e r).error_message =
      (if truthyStr e then e else r.error_message) := by
  unfold applyStatusUpdate
  dsimp only
  split_ifs <;> rfl

theorem applyStatusUpdate_processed_at (now : Nat) (st : String) (j e : Option String)
    (r : JamfRequest) : (applyStatusUpdate now st j e r).processed_at =
      (if st = "completed" ∨ st = "failed" then some now else r.processed_at) := by
  unfold applyStatusUpdate
  dsimp only
  split_ifs <;> rfl

theorem applyStatusUpdate_frame (now : Nat) (st : String) (j e : Option String)
    (r : JamfRequest) :
    (applyStatusUpdate now st j e r).request_id = r.request_id ∧
    (applyStatusUpdate now st j e r).crm_id = r.crm_id ∧
    (applyStatusUpdate now st j e r).request_type = r.request_type ∧
    (applyStatusUpdate now st j e r).payload = r.payload ∧
    (applyStatusUpdate now st j e r).encrypted_key = r.encrypted_key ∧
    (applyStatusUpdate now st j e r).checksum = r.checksum ∧
    (applyStatusUpdate now st j e r).created_at = r.created_at ∧
    (applyStatusUpdate now st j e r).encryption_version = r.encryption_version := by
  unfold applyStatusUpdate
  dsimp only
  split_ifs <;> exact ⟨rfl, rfl, rfl, rfl, rfl, rfl, rfl, rfl⟩

theorem map_id_of_no_match {db : List JamfRequest} {rid : String}
    (f : JamfRequest → JamfRequest) (h : ∀ x ∈ db, x.request_id ≠ rid) :
    db.map (fun x => if x.request_id = rid then f x else x) = db := by
  have : db.map (fun x => if x.request_id = rid then f x else x) = db.map id := by
    apply List.map_congr_left
    intro x hx
    simp [if_neg (h x hx)]
  simpa using this

theorem update_request_status_eq_map (db : List JamfRequest) (now : Nat)
    (rid st : String) (j e : Option String) (hN : (dbIds db).Nodup) :
    (update_request_status db now rid st j e).2 =
      db.map (fun x => if x.request_id = rid then applyStatusUpdate now st j e x else x) := by
  induction db with
  | nil => rfl
  | cons r rest ih =>
    have hN' : (dbIds rest).Nodup := (List.nodup_cons.mp hN).2
    have hhead : r.request_id ∉ dbIds rest := (List.nodup_cons.mp hN).1
    by_cases h : r.request_id = rid
    · have hrest : ∀ x ∈ rest, x.request_id ≠ rid := by
        intro x hx hxid
        exact hhead (by
          have : x.request_id ∈ dbIds rest := List.mem_map_of_mem _ hx
          rw [hxid, ← h] at this
          exact this)
      simp only [update_request_status, if_pos h, List.map_cons, if_pos h,
        map_id_of_no_match _ hrest]
    · simp only [update_request_status, if_neg h, List.map_cons, if_neg h, ih hN']

theorem mem_insertByCreated {x r : JamfRequest} {l : List JamfRequest} :
    x ∈ insertByCreated r l ↔ x = r ∨ x ∈ l := by
  induction l with
  | nil => simp [insertByCreated]
  | cons y ys ih =>
    by_cases h : r.created_at ≤ y.created_at
    · simp [insertByCreated, h]
    · simp [insertByCreated, h, ih]
      tauto

theorem insertByCreated_perm (r : JamfRequest) (l : List JamfRequest) :
    (insertByCreated r l).Perm (r :: l) := by
  induction l with
  | nil => simp [insertByCreated]
  | cons y ys ih =>
    by_cases h : r.created_at ≤ y.created_at
    · simp [insertByCreated, h]
    · simp only [insertByCreated, if_neg h]
      exact List.Perm.trans (List.Perm.cons y ih) (List.Perm.swap r y ys)

theorem sortByCreated_perm (l : List JamfRequest) : (sortByCreated l).Perm l := by
  induction l with
  | nil => simp [sortByCreated]
  | cons r rs ih =>
    exact List.Perm.trans (insertByCreated_perm r _) (List.Perm.cons r ih)

theorem get_pending_mem {db : List JamfRequest} {n : Nat} {r : JamfRequest}
    (h : r ∈ get_pending_requests db n) : r ∈ db ∧ r.status = "pending" := by
  unfold get_pending_requests at h
  have h1 : r ∈ sortByCreated (db.filter (fun r => r.status == "pending")) :=
    List.take_subset _ _ h
  have h2 : r ∈ db.filter (fun r => r.status == "pending") :=
    (sortByCreated_perm _).mem_iff.mp h1
  have h3 := List.mem_filter.mp h2
  exact ⟨h3.1, by simpa using h3.2⟩

theorem get_pending_ids_nodup {db : List JamfRequest} (n : Nat) (hN : (dbIds db).Nodup) :
    (dbIds (get_pending_requests db n)).Nodup := by
  unfold get_pending_requests
  have hfil : (dbIds (db.filter (fun r => r.status == "pending"))).Nodup := by
    unfold dbIds
    exact List.Nodup.sublist (List.Sublist.map _ (List.filter_sublist db)) hN
  have hsort : (dbIds (sortByCreated (db.filter (fun r => r.status == "pending")))).Nodup := by
    unfold dbIds
    exact (List.Perm.nodup_iff (List.Perm.map _ (sortByCreated_perm _))).mpr hfil
  unfold dbIds
  exact List.Nodup.sublist (List.Sublist.map _ (List.take_sublist _ _)) hsort

/-! ## Structure of one drain invocation -/

theorem recordOutcome_request_id (m : EncryptionManager) (adapter : JamfAdapter) (now : Nat)
    (r : JamfRequest) : (recordOutcome m adapter now r).request_id = r.request_id := by
  unfold recordOutcome
  rw [applyStatusUpdate_request_id, applyStatusUpdate_request_id]

theorem recordOutcome_status (m : EncryptionManager) (adapter : JamfAdapter) (now : Nat)
    (r : JamfRequest) :
    (recordOutcome m adapter now r).status = (recordFate m adapter r).1 := by
  unfold recordOutcome
  rw [applyStatusUpdate_status]

theorem nodup_of_eq_ids {db db' : List JamfRequest} (h : dbIds db' = dbIds db)
    (hN : (dbIds db).Nodup) : (dbIds db').Nodup := h ▸ hN

theorem dbIds_map_if (db : List JamfRequest) (rid : String) (f : JamfRequest → JamfRequest)
    (hf : ∀ x, x.request_id = rid → (f x).request_id = x.request_id) :
    dbIds (db.map (fun x => if x.request_id = rid then f x else x)) = dbIds db := by
  unfold dbIds
  rw [List.map_map]
  apply List.map_congr_left
  intro x _
  by_cases h : x.request_id = rid
  · simp [Function.comp_def, if_pos h, hf x h]
  · simp [Function.comp_def, if_neg h]

theorem id_unique {db : List JamfRequest} (hN : (dbIds db).Nodup) {x y : JamfRequest}
    (hx : x ∈ db) (hy : y ∈ db) (h : x.request_id = y.request_id) : x = y :=
  List.inj_on_of_nodup_map (by simpa [dbIds] using hN) hx hy h

theorem processOneRequest_eq_map (m : EncryptionManager) (adapter : JamfAdapter) (now : Nat)
    (db : List JamfRequest) (r : JamfRequest) (hN : (dbIds db).Nodup) (hr : r ∈ db) :
    processOneRequest m adapter now db r =
      (db.map (fun x => if x.request_id = r.request_id then recordOutcome m adapter now r else x),
        (recordFate m adapter r).1 == "completed") := by
  unfold processOneRequest
  dsimp only
  rw [update_request_status_eq_map db now r.request_id "processing" none none hN]
  have hN1 : (dbIds (db.map (fun x => if x.request_id = r.request_id
      then applyStatusUpdate now "processing" none none x else x))).Nodup :=
    nodup_of_eq_ids
      (dbIds_map_if db _ _ (fun x _ => applyStatusUpdate_request_id _ _ _ _ x)) hN
  rw [update_request_status_eq_map _ now r.request_id _ _ _ hN1]
  rw [List.map_map]
  congr 1
  apply List.map_congr_left
  intro x hx
  by_cases h : x.request_id = r.request_id
  · have hxr : x = r := id_unique hN hx hr h
    subst hxr
    simp only [Function.comp_def, eq_self_iff_true, if_true]
    rw [if_pos (applyStatusUpdate_request_id now "processing" none none x)]
    rfl
  · simp only [Function.comp_def, if_neg h, if_neg h]

theorem drainLoop_spec (m : EncryptionManager) (adapter : JamfAdapter) (now : Nat) :
    ∀ batch db, (dbIds db).Nodup → (∀ r ∈ batch, r ∈ db) → (dbIds batch).Nodup →
      drainLoop m adapter now db batch =
        (db.map (fun x => if x.request_id ∈ dbIds batch
            then recordOutcome m adapter now x else x),
          (batch.filter (fun r => (recordFate m adapter r).1 == "completed")).length) := by
  intro batch
  induction batch with
  | nil =>
    intro db _ _ _
    have hmap : db.map (fun x => if x.request_id ∈ dbIds ([] : List JamfRequest)
        then recordOutcome m adapter now x else x) = db := by
      conv_rhs => rw [← List.map_id db]
      apply List.map_congr_left
      intro x _
      simp [dbIds]
    simp [drainLoop, hmap]
  | cons r rest ih =>
    intro db hN hsub hbN
    have hr : r ∈ db := hsub r (by simp)
    have hstep := processOneRequest_eq_map m adapter now db r hN hr
    have hbN' : (∀ x ∈ rest, ¬ x.request_id = r.request_id) ∧
        (List.map JamfRequest.request_id rest).Nodup := by
      simpa [dbIds, List.nodup_cons] using hbN
    have hridrest : r.request_id ∉ dbIds rest := by
      intro hmem
      rcases List.mem_map.mp (by simpa [dbIds] using hmem) with ⟨x, hx, hid⟩
      exact hbN'.1 x hx hid
    have hrestN : (dbIds rest).Nodup := hbN'.2
    set f1 : JamfRequest → JamfRequest :=
      fun x => if x.request_id = r.request_id then recordOutcome m adapter now r else x with hf1
    have hids1 : dbIds (db.map f1) = dbIds db := by
      rw [hf1]
      exact dbIds_map_if db _ _
        (fun x hx => (recordOutcome_request_id m adapter now r).trans hx.symm)
    have hN1 : (dbIds (db.map f1)).Nodup := nodup_of_eq_ids hids1 hN
    have hsub1 : ∀ x ∈ rest, x ∈ db.map f1 := by
      intro x hx
      have hxdb : x ∈ db := hsub x (by simp [hx])
      have hxid : x.request_id ≠ r.request_id := by
        intro hcontr
        exact hridrest (by
          simpa [dbIds, ← hcontr] using List.mem_map_of_mem JamfRequest.request_id hx)
      have hfx : f1 x = x := by simp [hf1, if_neg hxid]
      rw [← hfx]
      exact List.mem_map_of_mem f1 hxdb
    have hIH := ih (db.map f1) hN1 hsub1 hrestN
    show drainLoop m adapter now db (r :: rest) = _
    simp only [drainLoop, hstep, hIH, Prod.mk.injEq]
    refine ⟨?_, ?_⟩
    · rw [List.map_map]
      apply List.map_congr_left
      intro x hx
      by_cases h : x.request_id = r.request_id
      · have hxr : x = r := id_unique hN hx hr h
        subst hxr
        simp only [Function.comp_def, hf1, eq_self_iff_true, if_true]
        rw [if_neg (by rw [recordOutcome_request_id]; exact hridrest)]
        rw [if_pos (by simp [dbIds])]
      · have hfx : (fun x => if x.request_id = r.request_id
            then recordOutcome m adapter now r else x) x = x := by simp [if_neg h]
        simp only [Function.comp_def, hf1, hfx]
        by_cases h2 : x.request_id ∈ dbIds rest
        · rw [if_pos h2, if_pos (by simp [dbIds] at h2 ⊢; exact Or.inr h2)]
        · rw [if_neg h2, if_neg (by
            simp [dbIds] at h2 ⊢
            exact ⟨h, h2⟩)]
    · simp only [List.filter_cons]
      by_cases hp : ((recordFate m adapter r).1 == "completed") = true
      · simp [hp]
        omega
      · simp [hp]

theorem process_pending_eq (m : EncryptionManager) (adapter : JamfAdapter) (now : Nat)
    (db : List JamfRequest) (hN : (dbIds db).Nodup) :
    process_pending_requests m adapter now db =
      (db.map (fun x => if x.request_id ∈ dbIds (get_pending_requests db 100)
          then recordOutcome m adapter now x else x),
        ((get_pending_requests db 100).filter
          (fun r => (recordFate m adapter r).1 == "completed")).length) :=
  drainLoop_spec m adapter now (get_pending_requests db 100) db hN
    (fun _ hr => (get_pending_mem hr).1) (get_pending_ids_nodup 100 hN)

theorem recordFate_cases (m : EncryptionManager) (adapter : JamfAdapter) (r : JamfRequest) :
    (recordFate m adapter r).1 = "completed" ∨ (recordFate m adapter r).1 = "failed" := by
  unfold recordFate
  cases attemptRequest m adapter r with
  | error e => simp
  | ok o =>
    cases o with
    | none => simp
    | some res =>
      by_cases h : res.success = true
      · simp [h]
      · simp [h]

theorem parseJson_error {s : String} {e : PyErr} (h : parseJson s = .error e) :
    e = .jsonDecodeError := by
  unfold parseJson at h
  split at h
  · exact absurd h (by simp)
  · simpa using h.symm

theorem attempt_ok_result {m : EncryptionManager} {adapter : JamfAdapter} {r : JamfRequest}
    {res : AdapterResult} (hA : attemptRequest m adapter r = .ok (some res)) :
    ResultOf adapter res := by
  unfold attemptRequest at hA
  split at hA
  · exact absurd hA (by simp)
  · split at hA
    · exact absurd hA (by simp)
    · split at hA
      · exact absurd hA (by simp)
      · split at hA
        · exact Or.inl ⟨_, by simpa using hA⟩
        · split at hA
          · split at hA
            · exact absurd hA (by simp)
            · exact Or.inr (Or.inl ⟨_, _, by simpa using hA⟩)
          · split at hA
            · split at hA
              · exact absurd hA (by simp)
              · exact Or.inr (Or.inr ⟨_, by simpa using hA⟩)
            · exact absurd hA (by simp)

theorem attempt_error_str_ne {m : EncryptionManager} {adapter : JamfAdapter} {r : JamfRequest}
    {e : PyErr} (hA : attemptRequest m adapter r = .error e) : e.str ≠ "" := by
  unfold attemptRequest at hA
  split at hA
  · have : e = .valueError "Data integrity check failed" := by simpa using hA.symm
    subst this
    decide
  · split at hA
    · have : e = .valueError "Data integrity check failed" := by simpa using hA.symm
      subst this
      decide
    · split at hA
      · rename_i e' he'
        have : e = e' := by simpa using hA.symm
        subst this
        rw [parseJson_error he']
        decide
      · split at hA
        · exact absurd hA (by simp)
        · split at hA
          · split at hA
            · have : e = .valueError "jamf_pro_id required for update" := by simpa using hA.symm
              subst this
              decide
            · exact absurd hA (by simp)
          · split at hA
            · split at hA
              · have : e = .valueError "jamf_pro_id required for delete" := by
                  simpa using hA.symm
                subst this
                decide
              · exact absurd hA (by simp)
            · have : e = .valueError ("Unsupported request type: " ++ r.request_type) := by
                simpa using hA.symm
              subst this
              show "Unsupported request type: " ++ r.request_type ≠ ""
              intro hcontr
              have hlen := congrArg String.length hcontr
              rw [String.length_append] at hlen
              have h3 : ("Unsupported request type: " : String).length = 26 := by decide
              rw [h3] at hlen
              simp at hlen

theorem recordFate_failed_msg (m : EncryptionManager) (adapter : JamfAdapter)
    (r : JamfRequest) (hWF : AdapterWF adapter)
    (h : (recordFate m adapter r).1 = "failed") :
    ∃ s, (recordFate m adapter r).2.2 = some s ∧ s ≠ "" := by
  unfold recordFate at *
  cases hA : attemptRequest m adapter r with
  | error e =>
    exact ⟨e.str, rfl, attempt_error_str_ne hA⟩
  | ok o =>
    cases o with
    | none =>
      exact ⟨"No result", rfl, by decide⟩
    | some res =>
      by_cases hs : res.success = true
      · rw [hA] at h
        simp [hs] at h
      · rcases hWF res (attempt_ok_result hA) (by simpa using hs) with ⟨s, hse, hsne⟩
        simp only [hs, Bool.false_eq_true, if_false, hse, Option.getD_some]
        exact ⟨s, rfl, hsne⟩

/-! ## The claims -/

/-- C10 — For every existing record, `update_request_status` modifies
only `status`, `updated_at`, and conditionally `jamf_pro_id`,
`error_message`, `retry_count` and `processed_at`: the whole update is a
per-record rewrite of the matched row (all other rows untouched), the
fields `request_id`, `crm_id`, `request_type`, `payload`,
`encrypted_key`, `checksum`, `created_at` (and `encryption_version`) are
left unchanged by every call, and a missing or empty `jamf_pro_id` /
`error_message` argument keeps the stored field's prior value
(src/app/database.py lines 149-173). -/
theorem C10_update_status_frame (db : List JamfRequest) (now : Nat) (rid st : String)
    (j e : Option String) (x : JamfRequest) (hN : (dbIds db).Nodup) :
    (update_request_status db now rid st j e).2 =
      db.map (fun y => if y.request_id = rid then applyStatusUpdate now st j e y else y) ∧
    (applyStatusUpdate now st j e x).request_id = x.request_id ∧
    (applyStatusUpdate now st j e x).crm_id = x.crm_id ∧
    (applyStatusUpdate now st j e x).request_type = x.request_type ∧
    (applyStatusUpdate now st j e x).payload = x.payload ∧
    (applyStatusUpdate now st j e x).encrypted_key = x.encrypted_key ∧
    (applyStatusUpdate now st j e x).checksum = x.checksum ∧
    (applyStatusUpdate now st j e x).created_at = x.created_at ∧
    (applyStatusUpdate now st j e x).encryption_version = x.encryption_version ∧
    (applyStatusUpdate now st j e x).jamf_pro_id =
      (if truthyStr j then j else x.jamf_pro_id) ∧
    (applyStatusUpdate now st j e x).error_message =
      (if truthyStr e then e else x.error_message) := by
  obtain ⟨h1, h2, h3, h4, h5, h6, h7, h8⟩ := applyStatusUpdate_frame now st j e x
  exact ⟨update_request_status_eq_map db now rid st j e hN, h1, h2, h3, h4, h5, h6, h7, h8,
    applyStatusUpdate_jamf_pro_id now st j e x, applyStatusUpdate_error_message now st j e x⟩

/-- Witness for C10 at a concrete store, update and record. -/
theorem C10_update_status_frame_witness :
    (dbIds [wBadRec]).Nodup ∧
    ((update_request_status [wBadRec] 5 "r-bad" "processing" none none).2 =
      [wBadRec].map (fun y => if y.request_id = "r-bad"
        then applyStatusUpdate 5 "processing" none none y else y) ∧
    (applyStatusUpdate 5 "processing" none none wBadRec).request_id = wBadRec.request_id ∧
    (applyStatusUpdate 5 "processing" none none wBadRec).crm_id = wBadRec.crm_id ∧
    (applyStatusUpdate 5 "processing" none none wBadRec).request_type = wBadRec.request_type ∧
    (applyStatusUpdate 5 "processing" none none wBadRec).payload = wBadRec.payload ∧
    (applyStatusUpdate 5 "processing" none none wBadRec).encrypted_key = wBadRec.encrypted_key ∧
    (applyStatusUpdate 5 "processing" none none wBadRec).checksum = wBadRec.checksum ∧
    (applyStatusUpdate 5 "processing" none none wBadRec).created_at = wBadRec.created_at ∧
    (applyStatusUpdate 5 "processing" none none wBadRec).encryption_version =
      wBadRec.encryption_version ∧
    (applyStatusUpdate 5 "processing" none none wBadRec).jamf_pro_id =
      (if truthyStr none then none else wBadRec.jamf_pro_id) ∧
    (applyStatusUpdate 5 "processing" none none wBadRec).error_message =
      (if truthyStr none then none else wBadRec.error_message)) :=
  ⟨by decide, C10_update_status_frame [wBadRec] 5 "r-bad" "processing" none none wBadRec
    (by decide)⟩

/-- C6 counterexample — a call that is *not* a transition into `failed`
still increments `retry_count` when it carries an `error_message`: the
update to `processing` with message `"boom"` bumps the counter from 0 to
1, so the claimed "if and only if the call is a transition into failed"
is false of `update_request_status`. -/
theorem C6_retry_increment_without_failed :
    (update_request_status [wBadRec] 5 "r-bad" "processing" none (some "boom")).1 = true ∧
    (update_request_status [wBadRec] 5 "r-bad" "processing" none (some "boom")).2.map
      (fun y => (y.status, y.retry_count, y.error_message)) =
      [("processing", 1, some "boom")] := by decide

/-- C6 amended — `retry_count` increases by exactly one if and only if
the call supplies a truthy (non-empty) `error_message` and addresses the
record, whatever the new status; otherwise it is unchanged, so it is
monotonically non-decreasing (src/app/database.py lines 159-161). -/
theorem C6_retry_count_tracks_error_message (db : List JamfRequest) (now : Nat)
    (rid st : String) (j e : Option String) (x : JamfRequest)
    (hN : (dbIds db).Nodup) (hx : x ∈ db) :
    ∃ y ∈ (update_request_status db now rid st j e).2,
      y.request_id = x.request_id ∧
      y.retry_count = x.retry_count +
        (if x.request_id = rid ∧ truthyStr e = true then 1 else 0) ∧
      x.retry_count ≤ y.retry_count := by
  rw [update_request_status_eq_map db now rid st j e hN]
  by_cases h : x.request_id = rid
  · refine ⟨applyStatusUpdate now st j e x, ?_, applyStatusUpdate_request_id now st j e x,
      ?_, ?_⟩
    · have heq : (fun y => if y.request_id = rid then applyStatusUpdate now st j e y else y) x
          = applyStatusUpdate now st j e x := by simp [if_pos h]
      rw [← heq]
      exact List.mem_map_of_mem _ hx
    · rw [applyStatusUpdate_retry_count]
      by_cases he : truthyStr e = true
      · simp [h, he]
      · simp [h, he]
    · rw [applyStatusUpdate_retry_count]
      split_ifs <;> omega
  · refine ⟨x, ?_, rfl, ?_, le_rfl⟩
    · have heq : (fun y => if y.request_id = rid then applyStatusUpdate now st j e y else y) x
          = x := by simp [if_neg h]
      rw [← heq]
      exact List.mem_map_of_mem _ hx
    · simp [h]

/-- Witness for C6 at a concrete failed-transition call. -/
theorem C6_retry_count_tracks_error_message_witness :
    (dbIds [wBadRec]).Nodup ∧ wBadRec ∈ [wBadRec] ∧
    (∃ y ∈ (update_request_status [wBadRec] 5 "r-bad" "failed" none (some "oops")).2,
      y.request_id = wBadRec.request_id ∧
      y.retry_count = wBadRec.retry_count +
        (if wBadRec.request_id = "r-bad" ∧ truthyStr (some "oops") = true then 1 else 0) ∧
      wBadRec.retry_count ≤ y.retry_count) :=
  ⟨by decide, by decide,
    C6_retry_count_tracks_error_message [wBadRec] 5 "r-bad" "failed" none (some "oops") wBadRec
      (by decide) (by decide)⟩

/-- C2 counterexample — a decryption failure is *not* propagated: on a
malformed envelope, `decrypt_data` raises (`binascii.Error`) but
`decrypt_and_verify` catches it and returns `None` like a checksum
mismatch, instead of letting the failure reach its caller
(src/app/encryption.py lines 146-155). -/
theorem C2_decrypt_failure_not_propagated :
    decrypt_data wM "%%%" = .error PyErr.binasciiError ∧
    decrypt_and_verify wM "%%%" (some "abc") = none := by decide

/-- C2 amended — `decrypt_and_verify` never throws: if `decrypt_data`
fails, it returns null (the failure is caught, not propagated); if
decryption succeeds it returns the plaintext exactly when the computed
checksum matches the expected one and null otherwise
(src/app/encryption.py lines 135-155). -/
theorem C2_decrypt_and_verify_null_semantics (m : EncryptionManager) (enc : String)
    (expected : Option String) :
    (∀ err, decrypt_data m enc = .error err → decrypt_and_verify m enc expected = none) ∧
    (∀ d, decrypt_data m enc = .ok d →
      decrypt_and_verify m enc expected =
        (if checksumMatches m d expected then some d else none)) := by
  constructor
  · intro err herr
    unfold decrypt_and_verify
    rw [herr]
  · intro d hd
    unfold decrypt_and_verify
    rw [hd]

/-- Witness for C2 at a malformed envelope and at a genuine round-trip. -/
theorem C2_decrypt_and_verify_null_semantics_witness :
    decrypt_and_verify wM "%%%" (some "abc") = none ∧
    decrypt_and_verify wM (encrypt_data wM "hi") (some (generate_checksum wM "hi")) =
      some "hi" := by
  constructor
  · exact (C2_decrypt_and_verify_null_semantics wM "%%%" (some "abc")).1
      PyErr.binasciiError (by decide)
  · rw [(C2_decrypt_and_verify_null_semantics wM (encrypt_data wM "hi")
      (some (generate_checksum wM "hi"))).2 "hi" (by decide)]
    decide

/-- C5 counterexample — the pending-selection step and the `processing`
transition are not one atomic conditional update: under the interleaving
fetch-A, fetch-B, claim-A, claim-B over a single pending record, both
invocations observe the record as eligible (`pending`) and both
`processing` updates report success, so both claimants claim the same
record (src/app.py lines 236-242, src/app/database.py lines 149-188). -/
theorem C5_double_claim :
    get_pending_requests [wBadRec] 100 = [wBadRec] ∧
    (update_request_status [wBadRec] 5 "r-bad" "processing" none none).1 = true ∧
    (update_request_status
      (update_request_status [wBadRec] 5 "r-bad" "processing" none none).2
      6 "r-bad" "processing" none none).1 = true := by decide

/-- C5 amended — for every pending record, the code's two-step
read-then-write allows two overlapping invocations to both fetch the
record as pending and both succeed in transitioning it to `processing`:
selection and claim are separate store operations, so a record can be
double-processed (the atomic claim the spec asks for is not what the
code does). -/
theorem C5_two_step_claim_races (r : JamfRequest) (now now2 : Nat)
    (h : r.status = "pending") :
    r ∈ get_pending_requests [r] 100 ∧
    (update_request_status [r] now r.request_id "processing" none none).1 = true ∧
    (update_request_status
      (update_request_status [r] now r.request_id "processing" none none).2
      now2 r.request_id "processing" none none).1 = true := by
  refine ⟨?_, ?_, ?_⟩
  · simp [get_pending_requests, sortByCreated, insertByCreated, h]
  · simp [update_request_status]
  · simp [update_request_status, applyStatusUpdate_request_id]

/-- C8 — In every drain invocation, a per-record failure (decryption,
integrity, parse, missing id or adapter failure) never escapes the batch
loop: every fetched record still ends the invocation terminal —
`completed`, or `failed` with a non-empty recorded `error_message` — and
the invocation returns the number of fetched records whose outcome is
`completed` (src/app.py lines 238-299). -/
theorem C8_batch_isolation (m : EncryptionManager) (adapter : JamfAdapter) (now : Nat)
    (db : List JamfRequest) (hN : (dbIds db).Nodup) (hWF : AdapterWF adapter) :
    DrainIsolationSpec m adapter now db ∧ DrainCountSpec m adapter now db := by
  have hpe := process_pending_eq m adapter now db hN
  constructor
  · intro r hr
    have hrdb : r ∈ db := (get_pending_mem hr).1
    refine ⟨recordOutcome m adapter now r, ?_, recordOutcome_request_id m adapter now r, ?_⟩
    · rw [hpe]
      dsimp only
      have hmem : r.request_id ∈ dbIds (get_pending_requests db 100) := by
        simpa [dbIds] using List.mem_map_of_mem JamfRequest.request_id hr
      have heq : recordOutcome m adapter now r =
          (fun x => if x.request_id ∈ dbIds (get_pending_requests db 100)
            then recordOutcome m adapter now x else x) r := by
        simp [if_pos hmem]
      rw [heq]
      exact List.mem_map_of_mem _ hrdb
    · rcases recordFate_cases m adapter r with hc | hf
      · exact Or.inl (by rw [recordOutcome_status, hc])
      · refine Or.inr ⟨by rw [recordOutcome_status, hf], ?_⟩
        rcases recordFate_failed_msg m adapter r hWF hf with ⟨s, hse, hsne⟩
        refine ⟨s, ?_, hsne⟩
        unfold recordOutcome
        dsimp only
        rw [applyStatusUpdate_error_message, hse]
        rw [if_pos (by simp [truthyStr, hsne])]
  · unfold DrainCountSpec
    rw [hpe]
    dsimp only
    congr 1
    apply List.filter_congr
    intro x _
    rw [recordOutcome_status]

/-- The always-succeeding sample adapter is well-formed. -/
theorem wOkAdapter_wf : AdapterWF wOkAdapter := by
  intro res hres hfail
  rcases hres with ⟨emp, h⟩ | ⟨jid, emp, h⟩ | ⟨jid, h⟩ <;>
    · simp only [wOkAdapter, Option.some.injEq] at h
      rw [← h] at hfail
      simp at hfail

/-- Witness for C8 at a concrete store with one good and one poisoned
record. -/
theorem C8_batch_isolation_witness :
    (dbIds [wGoodRec, wBadRec]).Nodup ∧ AdapterWF wOkAdapter ∧
    (DrainIsolationSpec wM wOkAdapter 9 [wGoodRec, wBadRec] ∧
      DrainCountSpec wM wOkAdapter 9 [wGoodRec, wBadRec]) :=
  ⟨by decide, wOkAdapter_wf,
    C8_batch_isolation wM wOkAdapter 9 [wGoodRec, wBadRec] (by decide) wOkAdapter_wf⟩

/-- Witness for C5 at a concrete pending record. -/
theorem C5_two_step_claim_races_witness :
    wBadRec ∈ get_pending_requests [wBadRec] 100 ∧
    (update_request_status [wBadRec] 7 wBadRec.request_id "processing" none none).1 = true ∧
    (update_request_status
      (update_request_status [wBadRec] 7 wBadRec.request_id "processing" none none).2
      8 wBadRec.request_id "processing" none none).1 = true :=
  C5_two_step_claim_races wBadRec 7 8 (by decide)

/-! ## Status evolution across whole-system operation sequences (C4) -/

theorem statusForward_refl (s : String) : statusForward s s :=
  ⟨fun _ => rfl, fun h => h, fun h => h, fun h => Or.inl h⟩

theorem statusForward_trans {s s1 s2 : String} (h1 : statusForward s s1)
    (h2 : statusForward s1 s2) : statusForward s s2 := by
  obtain ⟨a1, b1, c1, d1⟩ := h1
  obtain ⟨a2, b2, c2, d2⟩ := h2
  refine ⟨?_, ?_, ?_, ?_⟩
  · intro hs
    rw [a2 (by rw [a1 hs]; exact hs), a1 hs]
  · intro hs
    exact b2 (b1 hs)
  · intro hs
    exact c1 (c2 hs)
  · intro hs
    rcases d1 hs with h | h | h
    · exact d2 h
    · rw [a2 (by rw [h]; decide)]
      exact Or.inr (Or.inl h)
    · rw [a2 (by rw [h]; decide)]
      exact Or.inr (Or.inr h)

theorem statusOf_map_pres (db : List JamfRequest) (rid : String)
    (g : JamfRequest → JamfRequest) (hg : ∀ x, (g x).request_id = x.request_id) :
    statusOf (db.map g) rid =
      (db.find? (fun x => x.request_id == rid)).map (fun x => (g x).status) := by
  unfold statusOf
  rw [List.find?_map]
  have hpc : ((fun r => r.request_id == rid) ∘ g) = (fun x => x.request_id == rid) := by
    funext x
    simp [Function.comp, hg]
  rw [hpc, Option.map_map]
  rfl

theorem statusOf_append_of_some {db : List JamfRequest} {rid s : String}
    (l : List JamfRequest) (h : statusOf db rid = some s) :
    statusOf (db ++ l) rid = some s := by
  unfold statusOf at *
  rw [List.find?_append]
  rcases Option.map_eq_some'.mp h with ⟨x, hfind, hxs⟩
  rw [hfind]
  simpa [hfind] using h

/-- An ingestion call never changes the status of an existing record:
it only rejects, conflicts (store untouched) or appends a fresh row. -/
theorem ingest_statusOf (m : EncryptionManager) (storedToken : Option String)
    (db : List JamfRequest) (now : Nat) (freshId : String) (body : Option IngestBody)
    {rid s : String} (h : statusOf db rid = some s) :
    statusOf ((create_request_route m storedToken db now freshId body).db) rid = some s := by
  unfold create_request_route
  match body with
  | none => exact h
  | some data =>
    dsimp only
    split_ifs with h1 h2 h3
    · exact h
    · exact h
    · exact h
    · by_cases hdup : db.any (fun r => r.request_id == freshId) = true
      · simp only [db_create_request, hdup, if_true]
        exact h
      · simp only [db_create_request, hdup, Bool.false_eq_true, if_false]
        exact statusOf_append_of_some _ h

theorem dbIds_append_nodup {db : List JamfRequest} {r : JamfRequest}
    (hN : (dbIds db).Nodup) (hnin : r.request_id ∉ dbIds db) :
    (dbIds (db ++ [r])).Nodup := by
  have hsplit : dbIds (db ++ [r]) = dbIds db ++ [r.request_id] := by simp [dbIds]
  rw [hsplit, List.nodup_append]
  exact ⟨hN, List.nodup_singleton _, by
    intro a ha hb
    rw [List.mem_singleton.mp hb] at ha
    exact hnin ha⟩

theorem dbIds_map_outcome (m : EncryptionManager) (adapter : JamfAdapter) (now : Nat)
    (db : List JamfRequest) (ids : List String) :
    dbIds (db.map (fun x => if x.request_id ∈ ids then recordOutcome m adapter now x else x))
      = dbIds db := by
  unfold dbIds
  rw [List.map_map]
  apply List.map_congr_left
  intro x _
  by_cases hmem : x.request_id ∈ ids
  · simp only [Function.comp_def, if_pos hmem, recordOutcome_request_id]
  · simp only [Function.comp_def, if_neg hmem]

/-- An ingestion call preserves uniqueness of stored ids: a duplicate id
is refused by the unique constraint, a fresh one is appended. -/
theorem ingest_nodup (m : EncryptionManager) (storedToken : Option String)
    (db : List JamfRequest) (now : Nat) (freshId : String) (body : Option IngestBody)
    (hN : (dbIds db).Nodup) :
    (dbIds (create_request_route m storedToken db now freshId body).db).Nodup := by
  unfold create_request_route
  match body with
  | none => exact hN
  | some data =>
    dsimp only
    split_ifs with h1 h2 h3
    · exact hN
    · exact hN
    · exact hN
    · by_cases hdup : db.any (fun r => r.request_id == freshId) = true
      · simp only [db_create_request, hdup, if_true]
        exact hN
      · simp only [db_create_request, hdup, Bool.false_eq_true, if_false]
        have hnin : freshId ∉ dbIds db := by
          intro hmem
          rcases List.mem_map.mp (by simpa [dbIds] using hmem) with ⟨x, hx, hid⟩
          exact hdup (List.any_eq_true.mpr ⟨x, hx, by simp [hid]⟩)
        exact dbIds_append_nodup hN hnin

/-- A drain invocation preserves uniqueness of stored ids. -/
theorem drain_nodup (m : EncryptionManager) (adapter : JamfAdapter) (now : Nat)
    (db : List JamfRequest) (hN : (dbIds db).Nodup) :
    (dbIds (process_pending_requests m adapter now db).1).Nodup := by
  rw [process_pending_eq m adapter now db hN]
  dsimp only
  exact nodup_of_eq_ids (dbIds_map_outcome m adapter now db _) hN

/-- Per-record status evolution across one drain invocation: records the
batch does not touch keep their status; a fetched record was `pending`
and ends `completed` or `failed`. -/
theorem drain_statusOf (m : EncryptionManager) (adapter : JamfAdapter) (now : Nat)
    (db : List JamfRequest) (rid s : String) (hN : (dbIds db).Nodup)
    (h : statusOf db rid = some s) :
    ∃ sf, statusOf (process_pending_requests m adapter now db).1 rid = some sf ∧
      statusForward s sf := by
  have hpe := process_pending_eq m adapter now db hN
  unfold statusOf at h
  rcases Option.map_eq_some'.mp h with ⟨x, hfind, hxs⟩
  have hxdb := List.mem_of_find?_eq_some hfind
  have hxid : x.request_id = rid := by simpa using List.find?_some hfind
  rw [hpe]
  dsimp only
  rw [statusOf_map_pres db rid _ (fun y => by
    by_cases hmem : y.request_id ∈ dbIds (get_pending_requests db 100)
    · simp [if_pos hmem, recordOutcome_request_id]
    · simp [if_neg hmem])]
  rw [hfind]
  by_cases hmem : x.request_id ∈ dbIds (get_pending_requests db 100)
  · rcases List.mem_map.mp (by simpa [dbIds] using hmem) with ⟨b, hbbatch, hbid⟩
    have hbdb := (get_pending_mem hbbatch).1
    have hbpend := (get_pending_mem hbbatch).2
    have hbx : b = x := id_unique hN hbdb hxdb hbid
    have hxpend : x.status = "pending" := by rw [← hbx]; exact hbpend
    have hspend : s = "pending" := by rw [← hxs, hxpend]
    refine ⟨(recordOutcome m adapter now x).status, by simp [if_pos hmem], ?_⟩
    have hterm := recordFate_cases m adapter x
    rw [recordOutcome_status]
    subst hspend
    refine ⟨fun hns => absurd rfl hns, ?_, ?_, ?_⟩
    · intro hf
      exact absurd hf (by decide)
    · intro _
      rfl
    · intro _
      rcases hterm with hc | hf
      · exact Or.inr (Or.inl hc)
      · exact Or.inr (Or.inr hf)
  · refine ⟨x.status, by simp [if_neg hmem], ?_⟩
    rw [hxs]
    exact statusForward_refl s

/-- Every system operation preserves uniqueness of stored ids. -/
theorem applySysOp_nodup (m : EncryptionManager) (db : List JamfRequest) (op : SysOp)
    (hN : (dbIds db).Nodup) : (dbIds (applySysOp m db op)).Nodup := by
  cases op with
  | ingest storedToken freshId body now =>
    exact ingest_nodup m storedToken db now freshId body hN
  | drain storedToken body adapter now =>
    unfold applySysOp
    match body with
    | none => exact hN
    | some data =>
      dsimp only
      by_cases hv : validate_payload_token storedToken data = true
      · simpa [hv] using drain_nodup m adapter now db hN
      · simpa [hv] using hN

/-- Every system operation moves an existing record's status only
forward. -/
theorem applySysOp_statusOf (m : EncryptionManager) (db : List JamfRequest) (op : SysOp)
    (rid s : String) (hN : (dbIds db).Nodup) (h : statusOf db rid = some s) :
    ∃ sf, statusOf (applySysOp m db op) rid = some sf ∧ statusForward s sf := by
  cases op with
  | ingest storedToken freshId body now =>
    exact ⟨s, ingest_statusOf m storedToken db now freshId body h, statusForward_refl s⟩
  | drain storedToken body adapter now =>
    unfold applySysOp
    match body with
    | none => exact ⟨s, h, statusForward_refl s⟩
    | some data =>
      dsimp only
      by_cases hv : validate_payload_token storedToken data = true
      · simpa [hv] using drain_statusOf m adapter now db rid s hN h
      · simpa [hv] using ⟨s, h, statusForward_refl s⟩

/-- C4 — Across every sequence of system operations (ingestions and
drains) on a store with unique ids, a record's status only moves forward
along pending → processing → completed | failed: a status past `pending`
is never changed back (in particular nothing ever returns to `pending`
and a `failed` record stays `failed`), and a `pending` record can only
remain `pending` or end `completed`/`failed` (src/app.py lines 236-299,
src/app/database.py lines 149-188). -/
theorem C4_status_forward (m : EncryptionManager) (ops : List SysOp) (db : List JamfRequest)
    (rid s : String) (hN : (dbIds db).Nodup) (h : statusOf db rid = some s) :
    ∃ sf, statusOf (runOps m ops db) rid = some sf ∧ statusForward s sf := by
  induction ops generalizing db s with
  | nil => exact ⟨s, h, statusForward_refl s⟩
  | cons op ops ih =>
    rcases applySysOp_statusOf m db op rid s hN h with ⟨s1, h1, hf1⟩
    rcases ih (applySysOp m db op) s1 (applySysOp_nodup m db op hN) h1 with ⟨sf, hsf, hff⟩
    exact ⟨sf, hsf, statusForward_trans hf1 hff⟩

/-- Witness for C4: a failed record stays failed across a concrete
drain-then-ingest sequence. -/
theorem C4_status_forward_witness :
    (dbIds [mkSample "r-f" "create" "x" none "failed" 1]).Nodup ∧
    statusOf [mkSample "r-f" "create" "x" none "failed" 1] "r-f" = some "failed" ∧
    (∃ sf, statusOf (runOps wM
        [SysOp.drain (some "tok") (some (mkBody "x")) wOkAdapter 9,
         SysOp.ingest (some "tok") "r-new" (some (mkBody "y")) 10]
        [mkSample "r-f" "create" "x" none "failed" 1]) "r-f" = some sf ∧
      statusForward "failed" sf) :=
  ⟨by decide, by decide,
    C4_status_forward wM
      [SysOp.drain (some "tok") (some (mkBody "x")) wOkAdapter 9,
       SysOp.ingest (some "tok") "r-new" (some (mkBody "y")) 10]
      [mkSample "r-f" "create" "x" none "failed" 1] "r-f" "failed"
      (by decide) (by decide)⟩

/-! ## Ingestion validation (C9) and the checksum defect (C1) -/

/-- C9 counterexample — the structural envelope-shape check is never
applied to `payload`: a submission whose payload fails
`validate_encrypted_data` (not base64 at all) but whose `encrypted_key`
passes is accepted with 201 and persisted as-is (src/app.py line 122
validates `data['encrypted_key']`, not `data['payload']`). -/
theorem C9_payload_shape_not_checked :
    validate_encrypted_data wM "%%%" = false ∧
    (create_request_route wM (some "tok") [] 5 "rid-9" (some (mkBody "%%%"))).statusCode
      = 201 ∧
    (create_request_route wM (some "tok") [] 5 "rid-9" (some (mkBody "%%%"))).db.map
      JamfRequest.payload = ["%%%"] := by decide

/-- C9 amended — ingestion rejects with a client error, persisting
nothing, when a required field is missing (400), when the token fails
validation (401), or when the *encrypted_key* fails the structural
envelope-shape check (400); when those three gates pass, the request is
not rejected with a client error regardless of the payload's shape — the
payload itself is never shape-checked (src/app.py lines 99-147). -/
theorem C9_ingest_rejections (m : EncryptionManager) (storedToken : Option String)
    (db : List JamfRequest) (now : Nat) (freshId : String) (body : IngestBody) :
    ((body.crm_id.isNone || body.request_type.isNone || body.payload.isNone ||
        body.encrypted_key.isNone || body.token.isNone) = true →
      create_request_route m storedToken db now freshId (some body) =
        { statusCode := 400, requestId := none, db := db }) ∧
    ((body.crm_id.isNone || body.request_type.isNone || body.payload.isNone ||
        body.encrypted_key.isNone || body.token.isNone) = false →
      validate_payload_token storedToken body = false →
      create_request_route m storedToken db now freshId (some body) =
        { statusCode := 401, requestId := none, db := db }) ∧
    ((body.crm_id.isNone || body.request_type.isNone || body.payload.isNone ||
        body.encrypted_key.isNone || body.token.isNone) = false →
      validate_payload_token storedToken body = true →
      validate_encrypted_data m (body.encrypted_key.getD "") = false →
      create_request_route m storedToken db now freshId (some body) =
        { statusCode := 400, requestId := none, db := db }) ∧
    ((body.crm_id.isNone || body.request_type.isNone || body.payload.isNone ||
        body.encrypted_key.isNone || body.token.isNone) = false →
      validate_payload_token storedToken body = true →
      validate_encrypted_data m (body.encrypted_key.getD "") = true →
      (create_request_route m storedToken db now freshId (some body)).statusCode ≠ 400 ∧
      (create_request_route m storedToken db now freshId (some body)).statusCode ≠ 401) := by
  refine ⟨?_, ?_, ?_, ?_⟩
  · intro hmiss
    unfold create_request_route
    dsimp only
    rw [if_pos hmiss]
  · intro hmiss htok
    unfold create_request_route
    dsimp only
    rw [if_neg (by simp [hmiss]), if_pos (by simp [htok])]
  · intro hmiss htok hkey
    unfold create_request_route
    dsimp only
    rw [if_neg (by simp [hmiss]), if_neg (by simp [htok]), if_pos (by simp [hkey])]
  · intro hmiss htok hkey
    unfold create_request_route
    dsimp only
    rw [if_neg (by simp [hmiss]), if_neg (by simp [htok]), if_neg (by simp [hkey])]
    by_cases hdup : db.any (fun r => r.request_id == freshId) = true
    · simp [db_create_request, hdup]
    · simp [db_create_request, hdup]

/-- Witness for C9 at three concrete rejected submissions. -/
theorem C9_ingest_rejections_witness :
    create_request_route wM (some "tok") [] 5 "r9"
        (some { crm_id := none, request_type := some "create", payload := some "p",
                encrypted_key := some "QQ==", token := some "tok" }) =
      { statusCode := 400, requestId := none, db := [] } ∧
    create_request_route wM (some "tok") [] 5 "r9"
        (some { crm_id := some "crm-1", request_type := some "create", payload := some "p",
                encrypted_key := some "QQ==", token := some "bad" }) =
      { statusCode := 401, requestId := none, db := [] } ∧
    create_request_route wM (some "tok") [] 5 "r9"
        (some { crm_id := some "crm-1", request_type := some "create", payload := some "p",
                encrypted_key := some "%%%", token := some "tok" }) =
      { statusCode := 400, requestId := none, db := [] } :=
  ⟨(C9_ingest_rejections wM (some "tok") [] 5 "r9"
      { crm_id := none, request_type := some "create", payload := some "p",
        encrypted_key := some "QQ==", token := some "tok" }).1 (by decide),
   (C9_ingest_rejections wM (some "tok") [] 5 "r9"
      { crm_id := some "crm-1", request_type := some "create", payload := some "p",
        encrypted_key := some "QQ==", token := some "bad" }).2.1 (by decide) (by decide),
   (C9_ingest_rejections wM (some "tok") [] 5 "r9"
      { crm_id := some "crm-1", request_type := some "create", payload := some "p",
        encrypted_key := some "%%%", token := some "tok" }).2.2.1 (by decide) (by decide)
     (by decide)⟩

/-- C1 — the persisted checksum is the digest of the *ciphertext*, not
the plaintext: `create_request` hashes the submitted (encrypted)
`payload` (src/app.py line 126), while `decrypt_and_verify` later
compares that stored value against the digest of the decrypted plaintext
(src/app/encryption.py lines 147-152).  The two digests differ, so a
well-formed CRM submission (payload encrypted exactly as
src/example_crm_request.py does) is accepted with 201 and then fails
every drain with "Data integrity check failed", even under an adapter
that always succeeds. -/
theorem C1_checksum_of_ciphertext_bug :
    (create_request_route wM (some "tok") [] 5 "rid-1"
        (some (mkBody (encrypt_data wM wPlain)))).statusCode = 201 ∧
    (create_request_route wM (some "tok") [] 5 "rid-1"
        (some (mkBody (encrypt_data wM wPlain)))).db.map JamfRequest.checksum =
      [some (generate_checksum wM (encrypt_data wM wPlain))] ∧
    generate_checksum wM (encrypt_data wM wPlain) ≠ generate_checksum wM wPlain ∧
    (process_pending_requests wM wOkAdapter 6
        (create_request_route wM (some "tok") [] 5 "rid-1"
          (some (mkBody (encrypt_data wM wPlain)))).db).1.map
      (fun r => (r.status, r.error_message)) =
      [("failed", some "Data integrity check failed")] := by decide

/-! ## Completed create records and the external id (C7) -/

/-- C7 counterexample — a create-type record *can* be observed
`completed` with `jamf_pro_id` null: when the Jamf HTTP response carries
no `id` key, `create_computer_record` returns `success=True` with
`jamf_pro_id=None` (src/app/jamf_processor.py line 157), and the
completed-status update then leaves the stored `jamf_pro_id` at null
(src/app.py lines 271-276, src/app/database.py line 157). -/
theorem C7_completed_with_null_jamf_id :
    (process_pending_requests wM wNoIdAdapter 9 [wGoodRec]).1.map
      (fun r => (r.request_type, r.status, r.jamf_pro_id)) =
      [("create", "completed", none)] ∧
    (process_pending_requests wM wNoIdAdapter 9 [wGoodRec]).2 = 1 := by decide

/-- C7 amended — a create-type record that completes records the
adapter-assigned identifier *provided* the adapter's success result
carries a non-empty id: under that assumption, after the drain the
record is `completed` with exactly that id; when the success result
lacks an id the record completes with `jamf_pro_id` still null (the
counterexample). -/
theorem C7_completed_create_records_adapter_id (m : EncryptionManager)
    (adapter : JamfAdapter) (now : Nat) (db : List JamfRequest) (r : JamfRequest)
    (emp : EmployeeData) (res : AdapterResult) (jid : String)
    (hN : (dbIds db).Nodup) (hr : r ∈ get_pending_requests db 100)
    (htype : r.request_type = "create")
    (hdec : ∃ d, decrypt_and_verify m r.payload r.checksum = some d ∧ d ≠ "" ∧
      parseJson d = .ok emp)
    (hres : adapter.createRecord emp = some res) (hsucc : res.success = true)
    (hjid : res.jamf_pro_id = some jid) (hjne : jid ≠ "") :
    ∃ rOut ∈ (process_pending_requests m adapter now db).1,
      rOut.request_id = r.request_id ∧ rOut.status = "completed" ∧
      rOut.jamf_pro_id = some jid := by
  rcases hdec with ⟨d, hd, hdne, hparse⟩
  have hatt : attemptRequest m adapter r = .ok (some res) := by
    unfold attemptRequest
    rw [hd]
    dsimp only
    rw [if_neg hdne, hparse]
    dsimp only
    rw [if_pos htype, hres]
  have hfate : recordFate m adapter r = ("completed", some jid, none) := by
    unfold recordFate
    rw [hatt]
    simp [hsucc, hjid]
  have hout_status : (recordOutcome m adapter now r).status = "completed" := by
    rw [recordOutcome_status, hfate]
  have hout_jamf : (recordOutcome m adapter now r).jamf_pro_id = some jid := by
    unfold recordOutcome
    dsimp only
    rw [hfate]
    dsimp only
    rw [applyStatusUpdate_jamf_pro_id]
    rw [if_pos (by simp [truthyStr, hjne])]
  have hrdb := (get_pending_mem hr).1
  have hpe := process_pending_eq m adapter now db hN
  refine ⟨recordOutcome m adapter now r, ?_, recordOutcome_request_id m adapter now r,
    hout_status, hout_jamf⟩
  rw [hpe]
  dsimp only
  have hmem : r.request_id ∈ dbIds (get_pending_requests db 100) := by
    simpa [dbIds] using List.mem_map_of_mem JamfRequest.request_id hr
  have heq : recordOutcome m adapter now r =
      (fun x => if x.request_id ∈ dbIds (get_pending_requests db 100)
        then recordOutcome m adapter now x else x) r := by
    simp [if_pos hmem]
  rw [heq]
  exact List.mem_map_of_mem _ hrdb

/-- Witness for C7: the same create under an HTTP response that does
assign id `J7`. -/
theorem C7_completed_create_records_adapter_id_witness :
    (dbIds [wGoodRec]).Nodup ∧ wGoodRec ∈ get_pending_requests [wGoodRec] 100 ∧
    (∃ rOut ∈ (process_pending_requests wM wIdAdapter 9 [wGoodRec]).1,
      rOut.request_id = wGoodRec.request_id ∧ rOut.status = "completed" ∧
      rOut.jamf_pro_id = some "J7") :=
  ⟨by decide, by decide,
    C7_completed_create_records_adapter_id wM wIdAdapter 9 [wGoodRec] wGoodRec
      [("employee_id", .str "1"), ("email", .str "e"), ("full_name", .str "n"),
        ("device", .obj [("serial", "s")])]
      { success := true, jamf_pro_id := some "J7", error := none } "J7"
      (by decide) (by decide) (by decide)
      ⟨wPlain, by decide, by decide, by decide⟩
      (by decide) (by decide) (by decide) (by decide)⟩

end JamfBootstrap
